import Mathlib

/-!
# Verification of the mdl model decoder

A shallow embedding of `plumber_core/src/model/mdl.rs` (and the parts of
`model/mod.rs` it uses), together with theorems settling the frozen claims
about the decoder.

Modelling conventions:

* Byte buffers are `List UInt8`; all multi-byte fields are decoded
  little-endian, matching `zerocopy::FromBytes` / `from_ne_bytes` on the
  little-endian targets the crate supports.
* Rust `usize` casts of possibly-negative `isize` values wrap to huge
  numbers that always fail the subsequent bounds checks; we keep those
  intermediate values as `Int` and let the explicit `0 ≤ _` side of each
  bounds check play the same role.  The backing buffer is 4-aligned
  (`read_file_aligned::<A4>`), so an alignment requirement of `k` on a
  reference into the buffer is `offset % k = 0`.
* `f32`/`f64` arithmetic is idealised as exact arithmetic: `ℚ` wherever the
  code only adds, multiplies and divides (the concrete values the claims
  mention are exactly representable), and `ℝ` for the quaternion codecs and
  the root rotation correction, which use `sqrt`, `sin` and `cos`.
* Rust panics (`expect`, `unreachable!`, division by zero) are modelled by a
  distinguished error constructor `Err.panicked`, kept separate from the
  `Error` values the code actually returns.
* `binary_utils` (`parse`, `parse_slice`, `parse_mut`, `parse_slice_mut`,
  `null_terminated_prefix`) is not part of the given sources; those helpers
  are modelled from the spec, see the doc comments on `sliceFrom`,
  `nullTerminated` and the `parse*` helpers below.
-/

namespace MdlModel

/-- A byte buffer, as handed to `Mdl { bytes }`. -/
abbrev Bytes := List UInt8

/-- The error type, mirroring `model::Error` restricted to the variants the
mdl decoder produces, plus `panicked` which models a Rust panic (these are
not `Error` values in the source; they abort the process). -/
inductive Err where
  | corrupted (error : String)
  | invalidSignature (signature : Bytes)
  | unsupportedVersion (version : Int)
  | unsupported (feature : String)
  | panicked (msg : String)
deriving DecidableEq

/-- `true` exactly on the `unsupported` variant. -/
def Err.isUnsupported : Err → Bool
  | .unsupported _ => true
  | _ => false

/-- Shorthand for `Err::Corrupted` results (the `corrupted` helper in the
source). -/
def corruptedE {α : Type} (error : String) : Except Err α :=
  .error (.corrupted error)

/-! ## Little-endian byte readers -/

/-- Read one byte; out-of-range reads return 0 but every use site is guarded
by an explicit bounds check mirroring the source. -/
def readU8 (b : Bytes) (i : Nat) : Nat :=
  (b.getD i 0).toNat

def readU16le (b : Bytes) (i : Nat) : Nat :=
  readU8 b i + 256 * readU8 b (i + 1)

def readU32le (b : Bytes) (i : Nat) : Nat :=
  readU16le b i + 65536 * readU16le b (i + 2)

/-- Two's complement interpretation of 16 bits. -/
def i16OfBits (u : Nat) : Int :=
  let v : Nat := u % 65536
  if v < 32768 then (v : Int) else (v : Int) - 65536

/-- Two's complement interpretation of 32 bits. -/
def i32OfBits (u : Nat) : Int :=
  let v : Nat := u % 4294967296
  if v < 2147483648 then (v : Int) else (v : Int) - 4294967296

def readI16le (b : Bytes) (i : Nat) : Int := i16OfBits (readU16le b i)

def readI32le (b : Bytes) (i : Nat) : Int := i32OfBits (readU32le b i)

/-- Exact value of an `f32` bit pattern.  Infinities and NaNs have no exact
rational value and are mapped to 0; no claim depends on them. -/
def f32OfBits (u : Nat) : ℚ :=
  let sign : ℚ := if u / 2 ^ 31 % 2 = 1 then -1 else 1
  let e : Nat := u / 2 ^ 23 % 2 ^ 8
  let m : Nat := u % 2 ^ 23
  if e = 255 then 0
  else if e = 0 then sign * ((m : ℚ) / 2 ^ 23) * (2 : ℚ) ^ (-(126 : ℤ))
  else sign * (1 + (m : ℚ) / 2 ^ 23) * (2 : ℚ) ^ ((e : ℤ) - 127)

def readF32le (b : Bytes) (i : Nat) : ℚ := f32OfBits (readU32le b i)

/-- `i32 as usize` conversion via `try_into`, failing (with the message of
the enclosing call site) on negative values. -/
def toNatOr (n : Int) (error : String) : Except Err Nat :=
  if 0 ≤ n then .ok n.toNat else corruptedE error

/-- Two's complement wrap of an `i32` arithmetic result (release-mode Rust
wraps on overflow). -/
def i32Wrap (n : Int) : Int :=
  (n + 2147483648) % 4294967296 - 2147483648

/-- Rust `i32` division: truncating, and a division by zero is a panic, not
an error value. -/
def rustI32Div (a b : Int) : Except Err Int :=
  if b = 0 then .error (.panicked "attempt to divide by zero")
  else .ok (Int.tdiv a b)

/-! ## Bounded view layer (modelled from the spec)

`binary_utils` is not among the given sources.  The spec describes the
bounded view layer as: given a byte offset and a target shape, return a
reference/slice only if the full byte range lies within the buffer and the
offset satisfies the shape's required alignment; `null_terminated_prefix`
treats the stored bytes as a NUL-terminated prefix and is `None` when no
NUL terminator is found before the end of the buffer. -/

/-- Modelled from the spec: `bytes.get(i..)`, i.e. the suffix starting at
`i`, when `i` is within bounds.  Takes an `Int` so that call sites that cast
a negative `isize` to `usize` (wrapping to a huge value that is always out
of bounds) are covered by the `0 ≤ i` side of the check. -/
def sliceFrom (b : Bytes) (i : Int) : Option Bytes :=
  if 0 ≤ i ∧ i.toNat ≤ b.length then some (b.drop i.toNat) else none

/-- Modelled from the spec: `binary_utils::null_terminated_prefix`; the
prefix of `b` before its first NUL byte, or `none` when `b` contains no
NUL. -/
def nullTerminated (b : Bytes) : Option Bytes :=
  if b.contains 0 then some (b.takeWhile (fun c => c != 0)) else none

/-- Modelled from the spec: the bounds-and-alignment check of
`binary_utils::parse` / `parse_slice` for a byte range of `len` bytes at
`offset` with required alignment `align` (the buffer itself is 4-aligned). -/
def parseRangeOk (b : Bytes) (offset : Int) (len align : Nat) : Prop :=
  0 ≤ offset ∧ offset % (align : Int) = 0 ∧ offset + (len : Int) ≤ (b.length : Int)

instance (b : Bytes) (offset : Int) (len align : Nat) :
    Decidable (parseRangeOk b offset len align) := by
  unfold parseRangeOk; infer_instance

/-- Modelled from the spec: `binary_utils::parse_slice` for `count` records
of `size` bytes each, decoded from their absolute positions by `decode`. -/
def parseSliceD {α : Type} (b : Bytes) (offset : Int) (count size align : Nat)
    (decode : Bytes → Nat → α) : Option (List α) :=
  if parseRangeOk b offset (count * size) align then
    some ((List.range count).map (fun i => decode b (offset.toNat + i * size)))
  else none

/-! ## UTF-8 (`str::from_utf8`, `String::from_utf8_lossy`) -/

/-- Is `c` a UTF-8 continuation byte (`0x80..=0xBF`)? -/
def utf8Cont (c : UInt8) : Bool := 0x80 ≤ c && c ≤ 0xbf

/-- Valid range for the second byte of a 3-byte sequence with first byte
`c`. -/
def utf8Cont3 (c c1 : UInt8) : Bool :=
  if c = 0xe0 then 0xa0 ≤ c1 && c1 ≤ 0xbf
  else if c = 0xed then 0x80 ≤ c1 && c1 ≤ 0x9f
  else utf8Cont c1

/-- Valid range for the second byte of a 4-byte sequence with first byte
`c`. -/
def utf8Cont4 (c c1 : UInt8) : Bool :=
  if c = 0xf0 then 0x90 ≤ c1 && c1 ≤ 0xbf
  else if c = 0xf4 then 0x80 ≤ c1 && c1 ≤ 0x8f
  else utf8Cont c1

/-- UTF-8 validity of a byte sequence (the success condition of
`str::from_utf8`). -/
def utf8Valid : Bytes → Bool
  | [] => true
  | c :: rest =>
    if c ≤ 0x7f then utf8Valid rest
    else if c < 0xc2 then false
    else if c ≤ 0xdf then
      match rest with
      | c1 :: rest1 => utf8Cont c1 && utf8Valid rest1
      | [] => false
    else if c ≤ 0xef then
      match rest with
      | c1 :: c2 :: rest2 => utf8Cont3 c c1 && utf8Cont c2 && utf8Valid rest2
      | _ => false
    else if c ≤ 0xf4 then
      match rest with
      | c1 :: c2 :: c3 :: rest3 =>
        utf8Cont4 c c1 && utf8Cont c2 && utf8Cont c3 && utf8Valid rest3
      | _ => false
    else false

/-- The UTF-8 encoding of U+FFFD, emitted by `from_utf8_lossy` for each
maximal invalid subpart. -/
def fffd : Bytes := [0xef, 0xbf, 0xbd]

/-- The recursion of `String::from_utf8_lossy`, with an explicit `fuel`
parameter for structural recursion (so the kernel can evaluate it); each
level consumes at least one byte, so `fuel = b.length` never runs out, see
`utf8Lossy`. -/
def utf8LossyF : Nat → Bytes → Bytes
  | 0, _ => []
  | fuel + 1, b =>
    match b with
    | [] => []
    | c :: rest =>
      if c ≤ 0x7f then c :: utf8LossyF fuel rest
      else if c < 0xc2 then fffd ++ utf8LossyF fuel rest
      else if c ≤ 0xdf then
        match rest with
        | c1 :: rest1 =>
          if utf8Cont c1 then c :: c1 :: utf8LossyF fuel rest1
          else fffd ++ utf8LossyF fuel rest
        | [] => fffd
      else if c ≤ 0xef then
        match rest with
        | c1 :: rest1 =>
          if utf8Cont3 c c1 then
            match rest1 with
            | c2 :: rest2 =>
              if utf8Cont c2 then c :: c1 :: c2 :: utf8LossyF fuel rest2
              else fffd ++ utf8LossyF fuel rest1
            | [] => fffd
          else fffd ++ utf8LossyF fuel rest
        | [] => fffd
      else if c ≤ 0xf4 then
        match rest with
        | c1 :: rest1 =>
          if utf8Cont4 c c1 then
            match rest1 with
            | c2 :: rest2 =>
              if utf8Cont c2 then
                match rest2 with
                | c3 :: rest3 =>
                  if utf8Cont c3 then c :: c1 :: c2 :: c3 :: utf8LossyF fuel rest3
                  else fffd ++ utf8LossyF fuel rest2
                | [] => fffd
              else fffd ++ utf8LossyF fuel rest1
            | [] => fffd
          else fffd ++ utf8LossyF fuel rest
        | [] => fffd
      else fffd ++ utf8LossyF fuel rest

/-- `String::from_utf8_lossy`, at the byte level: valid sequences are kept,
each maximal invalid subpart is replaced by U+FFFD (per the WHATWG
substitution the Rust standard library implements). -/
def utf8Lossy (b : Bytes) : Bytes := utf8LossyF b.length b

/-! ## `Mdl::check_signature` -/

/-- The 4-byte magic `b"IDST"`. -/
def mdlMagic : Bytes := [0x49, 0x44, 0x53, 0x54]

/-- `Mdl::check_signature`: the first four bytes must equal the magic; a
mismatch is echoed through `String::from_utf8_lossy`. -/
def checkSignature (b : Bytes) : Except Err Unit :=
  if 4 ≤ b.length then
    if b.take 4 = mdlMagic then .ok ()
    else .error (.invalidSignature (utf8Lossy (b.take 4)))
  else corruptedE "eof reading signature"

/-! ## Quaternion / float codec library -/

/-- `f16_to_f64`, on the 16 bits of the input (idealised to exact
arithmetic; every branch of the source computes an exactly representable
value from exactly representable inputs).  The final branch builds an `f32`
bit pattern `sign << 31 | (biased_exponent + 112) << 23 | mantissa << 13`,
always a normal `f32` whose exact value is
`sign * 2 ^ (biased_exponent - 15) * (1 + mantissa / 1024)`. -/
def f16ToF64 (u : Nat) : ℚ :=
  let mantissa : Nat := u % 1024
  let biasedExponent : Nat := u / 1024 % 32
  let sign : Nat := u / 32768 % 2
  let floatSign : ℚ := if sign = 1 then -1 else 1
  if biasedExponent = 31 then
    if mantissa = 0 then 65504 * floatSign
    else 0
  else if biasedExponent = 0 ∧ mantissa ≠ 0 then
    floatSign * ((mantissa : ℚ) / 1024) / 16384
  else
    floatSign * (2 : ℚ) ^ ((biasedExponent : ℤ) - 15) * (1 + (mantissa : ℚ) / 1024)

/-- 3-component vector with exact-rational components (`f64` idealised). -/
structure Vec3 where
  x : ℚ
  y : ℚ
  z : ℚ
deriving DecidableEq

instance : Inhabited Vec3 := ⟨⟨0, 0, 0⟩⟩

/-- `Vector::default()`. -/
def Vec3.zero : Vec3 := ⟨0, 0, 0⟩

/-- `Vector::from_u16s`: componentwise `f16_to_f64`. -/
def Vec3.fromU16s (u0 u1 u2 : Nat) : Vec3 :=
  ⟨f16ToF64 u0, f16ToF64 u1, f16ToF64 u2⟩

/-- Quaternion with real components; the codecs use `sqrt` and the root
correction uses `sin`/`cos`, so these live in `ℝ`. -/
structure Quat where
  x : ℝ
  y : ℝ
  z : ℝ
  w : ℝ

/-- `Quaternion::from_u16s`.  (`f64::sqrt` of a negative argument is NaN in
Rust; `Real.sqrt` returns 0 there.  No claim depends on that case.) -/
noncomputable def Quat.fromU16s (u0 u1 u2 : Nat) : Quat :=
  let x : ℝ := ((u0 : ℝ) - 32768) / 32768
  let y : ℝ := ((u1 : ℝ) - 32768) / 32768
  let z : ℝ := (((u2 % 32768 : Nat) : ℝ) - 16384) / 16384
  let wSign : ℝ := if u2 / 32768 % 2 = 1 then -1 else 1
  let w : ℝ := Real.sqrt (1 - x * x - y * y - z * z) * wSign
  ⟨x, y, z, w⟩

/-- `Quaternion::from_bytes_48`, from the 6 bytes (list indexed as the
array is in the source). -/
noncomputable def Quat.fromBytes48 (bs : List UInt8) : Quat :=
  let byte (i : Nat) : Nat := (bs.getD i 0).toNat
  let a : Nat := (byte 1 % 128) * 256 + byte 0
  let b : Nat := (byte 3 % 128) * 256 + byte 2
  let c : Nat := (byte 5 % 128) * 256 + byte 4
  let missingComponentIndex : Nat := byte 1 / 128 * 2 + byte 3 / 128
  let missingComponentSign : ℝ := if 128 ≤ byte 5 then -1 else 1
  let a' : ℝ := ((a : ℝ) - 16384) / 23168
  let b' : ℝ := ((b : ℝ) - 16384) / 23168
  let c' : ℝ := ((c : ℝ) - 16384) / 23168
  let missingComponent : ℝ :=
    Real.sqrt (1 - a' * a' - b' * b' - c' * c') * missingComponentSign
  if missingComponentIndex = 1 then ⟨missingComponent, a', b', c'⟩
  else if missingComponentIndex = 2 then ⟨c', missingComponent, a', b'⟩
  else if missingComponentIndex = 3 then ⟨b', c', missingComponent, a'⟩
  else ⟨a', b', c', missingComponent⟩

/-- `Quaternion::from_bytes_64`, from the 8 bytes. -/
noncomputable def Quat.fromBytes64 (bs : List UInt8) : Quat :=
  let byte (i : Nat) : Nat := (bs.getD i 0).toNat
  let xu : Nat := byte 0 + byte 1 * 2 ^ 8 + (byte 2 % 32) * 2 ^ 16
  let x : ℝ := ((xu : ℝ) - 1048576) / 1048576.5
  let yu : Nat := byte 2 / 32 + byte 3 * 2 ^ 3 + byte 4 * 2 ^ 11 + (byte 5 % 4) * 2 ^ 19
  let y : ℝ := ((yu : ℝ) - 1048576) / 1048576.5
  let zu : Nat := byte 5 / 4 + byte 6 * 2 ^ 6 + (byte 7 % 128) * 2 ^ 14
  let z : ℝ := ((zu : ℝ) - 1048576) / 1048576.5
  let wSign : ℝ := if 128 ≤ byte 7 then -1 else 1
  let w : ℝ := Real.sqrt (1 - x * x - y * y - z * z) * wSign
  ⟨x, y, z, w⟩

/-! ## Root-bone correction -/

/-- Norm used by `UnitQuaternion::new_normalize`. -/
noncomputable def Quat.norm (q : Quat) : ℝ :=
  Real.sqrt (q.w ^ 2 + q.x ^ 2 + q.y ^ 2 + q.z ^ 2)

/-- `UnitQuaternion::new_normalize(Quaternion::new(w, x, y, z))`. -/
noncomputable def Quat.normalize (q : Quat) : Quat :=
  ⟨q.x / q.norm, q.y / q.norm, q.z / q.norm, q.w / q.norm⟩

/-- Hamilton product (the `UnitQuaternion` multiplication of nalgebra). -/
def Quat.hamilton (p q : Quat) : Quat :=
  ⟨p.w * q.x + p.x * q.w + p.y * q.z - p.z * q.y,
   p.w * q.y - p.x * q.z + p.y * q.w + p.z * q.x,
   p.w * q.z + p.x * q.y - p.y * q.x + p.z * q.w,
   p.w * q.w - p.x * q.x - p.y * q.y - p.z * q.z⟩

/-- `UnitQuaternion::from_euler_angles(0.0, 0.0, yaw)`: a pure yaw
rotation, `cos(yaw/2) + sin(yaw/2)·k`. -/
noncomputable def quatFromYaw (yaw : ℝ) : Quat :=
  ⟨0, 0, Real.sin (yaw / 2), Real.cos (yaw / 2)⟩

/-- `Quaternion::apply_root_rotation_correction`: normalize, then compose
on the right with a −90° yaw rotation. -/
noncomputable def Quat.applyRootRotationCorrection (q : Quat) : Quat :=
  q.normalize.hamilton (quatFromYaw (-(Real.pi / 2)))

/-- The exact rational value of the `f64` constant `FRAC_PI_2`. -/
def fracPi2 : ℚ := 884279719003555 / 2 ^ 49

/-- `Vector::apply_root_rotation_correction`: `self.z -= FRAC_PI_2`. -/
def Vec3.applyRootRotationCorrection (v : Vec3) : Vec3 :=
  { v with z := v.z - fracPi2 }

/-- `Vector::apply_root_position_correction`: `x = old.y`, `y = -old.x`,
`z` unchanged. -/
def Vec3.applyRootPositionCorrection (v : Vec3) : Vec3 :=
  { v with x := v.y, y := -v.x }

/-! ## Decoded animation data -/

/-- `AnimationRotationData`. -/
inductive AnimationRotationData where
  | constant (q : Quat)
  | animated (frames : List Quat)
  | animatedEuler (frames : List Vec3)
  | noData

/-- `AnimationPositionData`. -/
inductive AnimationPositionData where
  | constant (v : Vec3)
  | animated (frames : List Vec3)
  | noData

/-- `BoneAnimationData` (default: no rotation data, no position data). -/
structure BoneAnimationData where
  rotation : AnimationRotationData := .noData
  position : AnimationPositionData := .noData

instance : Inhabited BoneAnimationData := ⟨{}⟩

/-- Rotation part of `BoneAnimationData::apply_root_correction`. -/
noncomputable def AnimationRotationData.applyRootCorrection :
    AnimationRotationData → AnimationRotationData
  | .constant q => .constant q.applyRootRotationCorrection
  | .animated qs => .animated (qs.map Quat.applyRootRotationCorrection)
  | .animatedEuler vs => .animatedEuler (vs.map Vec3.applyRootRotationCorrection)
  | .noData => .noData

/-- Position part of `BoneAnimationData::apply_root_correction`. -/
def AnimationPositionData.applyRootCorrection :
    AnimationPositionData → AnimationPositionData
  | .constant v => .constant v.applyRootPositionCorrection
  | .animated vs => .animated (vs.map Vec3.applyRootPositionCorrection)
  | .noData => .noData

/-- `BoneAnimationData::apply_root_correction`. -/
noncomputable def BoneAnimationData.applyRootCorrection (d : BoneAnimationData) :
    BoneAnimationData :=
  ⟨d.rotation.applyRootCorrection, d.position.applyRootCorrection⟩

/-! ## Bones and animation descriptors (the fields the decoder uses) -/

/-- The fields of `Bone` used by the animation decoder.  The `[f32; 3]`
arrays are idealised as exact rationals. -/
structure BoneM where
  parentBoneIndex : Int
  position : Vec3
  rotation : Vec3
  positionScale : Vec3
  rotationScale : Vec3
deriving DecidableEq

instance : Inhabited BoneM := ⟨⟨0, default, default, default, default⟩⟩

/-- The fields of `AnimationDesc` used by `AnimationDescRef`. -/
structure AnimationDescM where
  flags : Int
  frameCount : Int
  animBlock : Int
  animOffset : Int
  sectionOffset : Int
  sectionFrameCount : Int
deriving DecidableEq

/-- `AnimationDescRef`: the parsed descriptor together with the absolute
file position it was parsed at, the bone table and the backing buffer. -/
structure AnimationDescRefM where
  desc : AnimationDescM
  offset : Nat
  bones : List BoneM
  bytes : Bytes

/-- `AnimationDescFlags::FRAMEANIM` (0x0040) membership after
`from_bits_truncate`: bit 6 of the `i32` flag word. -/
def hasFrameAnimFlag (flags : Int) : Bool :=
  (flags % 4294967296).toNat.testBit 6

/-! ## Legacy run-length decoder: animation values -/

/-- `AnimationValue`: a 16-bit value; the header view reads `valid` from the
low byte and `total` from the high byte (`to_ne_bytes` on little-endian). -/
structure AnimationValue where
  value : Int
deriving DecidableEq

/-- The 16 bits of the stored `i16`. -/
def AnimationValue.bits (v : AnimationValue) : Nat :=
  (v.value % 65536).toNat

/-- `AnimationValue::valid`: byte 0 (little-endian low byte). -/
def AnimationValue.valid (v : AnimationValue) : Nat :=
  v.bits % 256

/-- `AnimationValue::total`: byte 1 (little-endian high byte). -/
def AnimationValue.total (v : AnimationValue) : Nat :=
  v.bits / 256

/-- Build an `AnimationValue` from a `(total, valid)` header pair, the
inverse of `valid`/`total` above (used to state the claims' examples). -/
def animValueOfHeader (total valid : Nat) : AnimationValue :=
  ⟨i16OfBits (valid % 256 + 256 * (total % 256))⟩

/-- `read_animation_value`: consume two bytes from the front as an `i16`
(plain byte access, no alignment requirement). -/
def readAnimationValue (b : Bytes) : Except Err (AnimationValue × Bytes) :=
  match b with
  | b0 :: b1 :: rest => .ok (⟨i16OfBits (b0.toNat + 256 * b1.toNat)⟩, rest)
  | _ => corruptedE "animation values out of bounds"

/-- Read `n` consecutive animation values. -/
def readAnimationValuesN : Nat → Bytes → Except Err (List AnimationValue × Bytes)
  | 0, b => .ok ([], b)
  | n + 1, b => do
    let (v, b') ← readAnimationValue b
    let (vs, b'') ← readAnimationValuesN n b'
    .ok (v :: vs, b'')

/-- The loop of `AnimationRef::read_animation_values`: while fewer than
`frameCount` frames are covered, read a header; stop at a zero-`total`
header; otherwise read its `valid` explicit values and continue.

The loop terminates because each iteration increases `total` by at least 1;
the explicit `fuel` parameter (structural recursion, so that the kernel can
evaluate the definition) therefore never runs out when it starts at
`frameCount - total + 1` or more; see `readAnimationValuesAux_fuel`. -/
def readAnimationValuesAux (fuel frameCount : Nat) (b : Bytes) (total : Nat) :
    Except Err (List AnimationValue) :=
  match fuel with
  | 0 => .ok []
  | fuel + 1 =>
    if total < frameCount then do
      let (v, b') ← readAnimationValue b
      if v.total = 0 then .ok []
      else do
        let (vs, b'') ← readAnimationValuesN v.valid b'
        let rest ← readAnimationValuesAux fuel frameCount b'' (total + v.total)
        .ok (v :: vs ++ rest)
    else .ok []

/-- `AnimationRef::read_animation_values`. -/
def readAnimationValues (frameCount : Nat) (b : Bytes) :
    Except Err (List AnimationValue) :=
  readAnimationValuesAux (frameCount + 1) frameCount b 0

/-- The walking loop of `extract_animation_value`: starting at list index
`i` with remaining frame index `k`, find the header covering `k`.  Returns
the break position, or `none` for the paths that return `0.0`.

The loop terminates because `i` strictly increases and exits once
`values.get? i` is `none`; the `fuel` parameter (structural recursion, so
that the kernel can evaluate the definition) never runs out when it starts
at `values.length - i + 1` or more; see `extractLoop_fuel`. -/
def extractLoop (fuel : Nat) (values : List AnimationValue) (i k : Nat) :
    Option (Nat × Nat) :=
  match fuel with
  | 0 => Option.none
  | fuel + 1 =>
    match values.get? i with
    | Option.none => Option.none
    | some v =>
      if k < v.total then some (i, k)
      else if v.total = 0 then Option.none
      else extractLoop fuel values (i + v.valid + 1) (k - v.total)

/-- `extract_animation_value`. -/
def extractAnimationValue (frame : Nat) (values : List AnimationValue)
    (scale : ℚ) : ℚ :=
  match extractLoop (values.length + 1) values 0 frame with
  | Option.none => 0
  | some (i, k) =>
    match values.get? i with
    | Option.none => 0
    | some v =>
      let j : Nat := if k < v.valid then i + k + 1 else i + v.valid
      match values.get? j with
      | Option.none => 0
      | some v' => (v'.value : ℚ) * scale

/-! ## Animation section resolution -/

/-- The stored `AnimationSection` record (`anim_block`, `anim_offset`). -/
structure AnimationSectionM where
  animBlock : Int
  animOffset : Int
deriving DecidableEq

/-- Decode an `AnimationSection` record at absolute position `o`. -/
def decodeAnimationSection (b : Bytes) (o : Nat) : AnimationSectionM :=
  ⟨readI32le b o, readI32le b (o + 4)⟩

/-- `AnimationSectionsRef`. -/
structure AnimationSectionsM where
  animationSections : List AnimationSectionM
  offset : Int
  animOffset : Int
  bones : List BoneM
  bytes : Bytes

/-- `AnimationDescRef::animation_sections`. -/
def animationSections (r : AnimationDescRefM) : Except Err (Option AnimationSectionsM) :=
  if r.desc.sectionOffset = 0 ∨ r.desc.sectionFrameCount < 0 then .ok Option.none
  else
    let offset : Int := (r.offset : Int) + r.desc.sectionOffset
    do
    let q ← rustI32Div r.desc.frameCount r.desc.sectionFrameCount
    let count ← toNatOr (i32Wrap (q + 2)) "calculated animation section count is negative"
    match parseSliceD r.bytes offset count 8 4 decodeAnimationSection with
    | Option.none => corruptedE "animation sections out of bounds or misaligned"
    | some secs =>
      let firstSectionAnimOffset : Int :=
        match secs.get? 0 with
        | Option.none => 0
        | some s => s.animOffset
      let animOffset : Int := (r.offset : Int) + r.desc.animOffset - firstSectionAnimOffset
      .ok (some ⟨secs, offset, animOffset, r.bones, r.bytes⟩)

/-- A resolved animation section (`AnimationSectionRef`). -/
structure AnimationSectionRefM where
  animOffset : Int
  animBlock : Int
  bones : List BoneM
  frameCount : Nat
  lastSection : Bool
  bytes : Bytes

/-- The per-section resolution map of
`AnimationDescRef::iter_animation_sections` (before the external-chunk
filter).  The `usize` subtraction `frame_count - (sections_len - 2) *
section_frame_count` cannot underflow in any state reachable from
`iterAnimationSections` (there `sections_len - 2 = frame_count /
section_frame_count`), so plain truncating `Nat` subtraction is
faithful. -/
def resolvedSections (sections : AnimationSectionsM)
    (sectionFrameCount frameCount : Nat) : List AnimationSectionRefM :=
  let len := sections.animationSections.length
  sections.animationSections.enum.map (fun p =>
    { animOffset := sections.animOffset + p.2.animOffset
      animBlock := p.2.animBlock
      bones := sections.bones
      frameCount :=
        if p.1 < len - 2 then sectionFrameCount
        else frameCount - (len - 2) * sectionFrameCount
      lastSection :=
        decide (len - 2 ≤ p.1) || decide (frameCount = (p.1 + 1) * sectionFrameCount)
      bytes := sections.bytes })

/-- `AnimationDescRef::iter_animation_sections` (the produced iterator,
collected into a list). -/
def iterAnimationSections (r : AnimationDescRefM) :
    Except Err (Option (List AnimationSectionRefM)) :=
  do
  match ← animationSections r with
  | Option.none => .ok Option.none
  | some sections =>
    let sectionFrameCount ← toNatOr r.desc.sectionFrameCount
      "animation section frame count is negative"
    let frameCount ← toNatOr r.desc.frameCount "animation frame count is negative"
    .ok (some ((resolvedSections sections sectionFrameCount frameCount).filter
      (fun s => s.animBlock == 0)))

/-- `AnimationDescRef::animation_section` (the single-section path). -/
def animationSection (r : AnimationDescRefM) :
    Except Err (Option AnimationSectionRefM) :=
  if r.desc.animBlock ≠ 0 then .ok Option.none
  else do
    let frameCount ← toNatOr r.desc.frameCount "animation frame count is negative"
    .ok (some
        { animOffset := (r.offset : Int) + r.desc.animOffset
          animBlock := 0
          bones := r.bones
          frameCount := frameCount
          lastSection := true
          bytes := r.bytes })

/-! ## Cursor-based field readers

These model `binary_utils::parse_mut` / `parse_slice_mut` (not among the
given sources; modelled from the spec's bounded-view contract) on an
explicit absolute cursor into the 4-aligned backing buffer: a read of `n`
bytes at cursor `c` with alignment `k` requires `c % k = 0` and
`c + n ≤ len` and advances the cursor. -/

/-- Plain byte access `bytes.get(..n)` at cursor `c` (no alignment). -/
def takeBytesC (b : Bytes) (c n : Nat) (msg : String) :
    Except Err (List UInt8 × Nat) :=
  if c + n ≤ b.length then .ok ((b.drop c).take n, c + n) else corruptedE msg

/-- Modelled from the spec: `parse_slice_mut::<u16>(count)` at cursor `c`. -/
def parseSliceMutU16 (b : Bytes) (c count : Nat) (msg : String) :
    Except Err (List Nat × Nat) :=
  if c % 2 = 0 ∧ c + 2 * count ≤ b.length then
    .ok ((List.range count).map (fun i => readU16le b (c + 2 * i)), c + 2 * count)
  else corruptedE msg

/-- Modelled from the spec: `parse_slice_mut::<f32>(count)` at cursor `c`. -/
def parseSliceMutF32 (b : Bytes) (c count : Nat) (msg : String) :
    Except Err (List ℚ × Nat) :=
  if c % 4 = 0 ∧ c + 4 * count ≤ b.length then
    .ok ((List.range count).map (fun i => readF32le b (c + 4 * i)), c + 4 * count)
  else corruptedE msg

/-- Modelled from the spec: `parse_mut::<i16>()` at cursor `c`. -/
def parseMutI16 (b : Bytes) (c : Nat) (msg : String) : Except Err (Int × Nat) :=
  if c % 2 = 0 ∧ c + 2 ≤ b.length then .ok (readI16le b c, c + 2)
  else corruptedE msg

/-- Bit test on a flag byte (`BoneFlags`/`AnimationFlags` membership after
`from_bits_truncate`). -/
def u8HasFlag (flags bit : UInt8) : Bool := flags &&& bit != 0

/-! ## Per-frame bitflag decoder (`FrameAnimationRef`) -/

/-- The `FrameAnimation` record. -/
structure FrameAnimationM where
  constantsOffset : Int
  frameOffset : Int
  frameLength : Int
deriving DecidableEq

/-- Decode a `FrameAnimation` record (24 bytes) at absolute position `o`. -/
def decodeFrameAnimation (b : Bytes) (o : Nat) : FrameAnimationM :=
  ⟨readI32le b o, readI32le b (o + 4), readI32le b (o + 8)⟩

/-- `FrameAnimationRef`. -/
structure FrameAnimationRefM where
  frameAnimation : FrameAnimationM
  offset : Nat
  boneCount : Nat
  frameCount : Nat
  lastSection : Bool
  bytes : Bytes

/-- `AnimationSectionRef::frame_animation`. -/
def frameAnimationRef (s : AnimationSectionRefM) : Except Err FrameAnimationRefM :=
  if parseRangeOk s.bytes s.animOffset 24 4 then
    .ok
      { frameAnimation := decodeFrameAnimation s.bytes s.animOffset.toNat
        offset := s.animOffset.toNat
        boneCount := s.bones.length
        frameCount := s.frameCount
        lastSection := s.lastSection
        bytes := s.bytes }
  else corruptedE "animation section frame animation out of bounds or misaligned"

/-- `FrameAnimationRef::bone_flags`. -/
def boneFlagsOf (f : FrameAnimationRefM) : Except Err (List UInt8) :=
  let offset := f.offset + 24
  if offset + f.boneCount ≤ f.bytes.length then
    .ok ((f.bytes.drop offset).take f.boneCount)
  else corruptedE "frame animation bone flags out of bounds"

/-- One bone's step of the `read_bone_constants` loop: `CONST_ROT2`
(0x40), then `RAWROT` (0x02), then `RAWPOS` (0x01). -/
noncomputable def readConstantsBone (fl : UInt8) (d : BoneAnimationData) (c : Nat) (b : Bytes) :
    Except Err (BoneAnimationData × Nat) :=
  (if u8HasFlag fl 0x40 then
    takeBytesC b c 6 "frame animation bone constants out of bounds" >>= fun (bs, c') =>
      .ok ({ d with rotation := .constant (Quat.fromBytes48 bs) }, c')
  else .ok (d, c)) >>= fun (d1, c1) =>
  (if u8HasFlag fl 0x02 then
    parseSliceMutU16 b c1 3 "frame animation bone constants out of bounds or misaligned" >>=
      fun (us, c') =>
        let q := Quat.fromU16s (us.getD 0 0) (us.getD 1 0) (us.getD 2 0)
        .ok ({ d1 with rotation := .constant q }, c')
  else .ok (d1, c1)) >>= fun (d2, c2) =>
  if u8HasFlag fl 0x01 then
    parseSliceMutU16 b c2 3 "frame animation bone constants out of bounds or misaligned" >>=
      fun (us, c') =>
        let v := Vec3.fromU16s (us.getD 0 0) (us.getD 1 0) (us.getD 2 0)
        .ok ({ d2 with position := .constant v }, c')
  else .ok (d2, c2)

/-- The `bone_flags.iter().zip(data)` loop of `read_bone_constants`. -/
noncomputable def readConstantsLoop : List UInt8 → List BoneAnimationData → Nat → Bytes →
    Except Err (List BoneAnimationData × Nat)
  | [], ds, c, _ => .ok (ds, c)
  | _ :: _, [], c, _ => .ok ([], c)
  | fl :: fs, d :: ds, c, b => do
    let (d', c') ← readConstantsBone fl d c b
    let (ds', c'') ← readConstantsLoop fs ds c' b
    .ok (d' :: ds', c'')

/-- `FrameAnimationRef::read_bone_constants`. -/
noncomputable def readBoneConstants (f : FrameAnimationRefM) (flags : List UInt8)
    (data : List BoneAnimationData) : Except Err (List BoneAnimationData) :=
  if f.frameAnimation.constantsOffset = 0 then .ok data
  else
    let offset : Int := (f.offset : Int) + f.frameAnimation.constantsOffset
    match sliceFrom f.bytes offset with
    | Option.none => corruptedE "frame animation bone constants out of bounds"
    | some _ => do
      let (ds, _) ← readConstantsLoop flags data offset.toNat f.bytes
      .ok ds

/-- The initialisation loop of `read_bone_frames`: flagged bones get empty
`Animated` fields. -/
def initAnimatedFields : List UInt8 → List BoneAnimationData → List BoneAnimationData
  | [], ds => ds
  | _ :: _, [] => []
  | fl :: fs, d :: ds =>
    let d1 := if u8HasFlag fl 0x80 || u8HasFlag fl 0x08 then
        { d with rotation := .animated [] } else d
    let d2 := if u8HasFlag fl 0x04 || u8HasFlag fl 0x10 then
        { d1 with position := .animated [] } else d1
    d2 :: initAnimatedFields fs ds

/-- `frames.push(..)` under `if let Animated(frames) .. else unreachable!()`. -/
def pushRotationFrame (d : BoneAnimationData) (q : Quat) : Except Err BoneAnimationData :=
  match d.rotation with
  | .animated frames => .ok { d with rotation := .animated (frames ++ [q]) }
  | _ => .error (.panicked "internal error: entered unreachable code")

/-- `frames.push(..)` under `if let Animated(frames) .. else unreachable!()`. -/
def pushPositionFrame (d : BoneAnimationData) (v : Vec3) : Except Err BoneAnimationData :=
  match d.position with
  | .animated frames => .ok { d with position := .animated (frames ++ [v]) }
  | _ => .error (.panicked "internal error: entered unreachable code")

/-- One bone's step of the per-frame loop of `read_bone_frames`:
`ANIM_ROT2` (0x80), `ANIMROT` (0x08), `ANIMPOS` (0x04), `FULLANIMPOS`
(0x10), in that order. -/
noncomputable def readFrameBone (fl : UInt8) (d : BoneAnimationData) (c : Nat) (b : Bytes) :
    Except Err (BoneAnimationData × Nat) :=
  (if u8HasFlag fl 0x80 then
    takeBytesC b c 6 "frame animation bone frames out of bounds" >>= fun (bs, c') =>
      pushRotationFrame d (Quat.fromBytes48 bs) >>= fun d' => .ok (d', c')
  else .ok (d, c)) >>= fun (d1, c1) =>
  (if u8HasFlag fl 0x08 then
    parseSliceMutU16 b c1 3 "frame animation bone frames out of bounds or misaligned" >>=
      fun (us, c') =>
        pushRotationFrame d1 (Quat.fromU16s (us.getD 0 0) (us.getD 1 0) (us.getD 2 0)) >>=
          fun d' => .ok (d', c')
  else .ok (d1, c1)) >>= fun (d2, c2) =>
  (if u8HasFlag fl 0x04 then
    parseSliceMutU16 b c2 3 "frame animation bone frames out of bounds or misaligned" >>=
      fun (us, c') =>
        pushPositionFrame d2 (Vec3.fromU16s (us.getD 0 0) (us.getD 1 0) (us.getD 2 0)) >>=
          fun d' => .ok (d', c')
  else .ok (d2, c2)) >>= fun (d3, c3) =>
  if u8HasFlag fl 0x10 then
    parseSliceMutF32 b c3 3 "frame animation bone frames out of bounds or misaligned" >>=
      fun (qs, c') =>
        pushPositionFrame d3 ⟨qs.getD 0 0, qs.getD 1 0, qs.getD 2 0⟩ >>=
          fun d' => .ok (d', c')
  else .ok (d3, c3)

/-- The inner `bone_flags.iter().zip(&mut *data)` loop of one frame. -/
noncomputable def readFrameBonesLoop : List UInt8 → List BoneAnimationData → Nat → Bytes →
    Except Err (List BoneAnimationData × Nat)
  | [], ds, c, _ => .ok (ds, c)
  | _ :: _, [], c, _ => .ok ([], c)
  | fl :: fs, d :: ds, c, b => do
    let (d', c') ← readFrameBone fl d c b
    let (ds', c'') ← readFrameBonesLoop fs ds c' b
    .ok (d' :: ds', c'')

/-- The outer `for _ in 0..frame_count` loop of `read_bone_frames`. -/
noncomputable def readFramesLoop : Nat → List UInt8 → List BoneAnimationData → Nat → Bytes →
    Except Err (List BoneAnimationData × Nat)
  | 0, _, ds, c, _ => .ok (ds, c)
  | n + 1, fs, ds, c, b => do
    let (ds', c') ← readFrameBonesLoop fs ds c b
    readFramesLoop n fs ds' c' b

/-- `FrameAnimationRef::read_bone_frames`. -/
noncomputable def readBoneFrames (f : FrameAnimationRefM) (flags : List UInt8)
    (data : List BoneAnimationData) : Except Err (List BoneAnimationData) :=
  if f.frameAnimation.frameOffset = 0 then .ok data
  else
    let offset : Int := (f.offset : Int) + f.frameAnimation.frameOffset
    match sliceFrom f.bytes offset with
    | Option.none => corruptedE "frame animation bone frames out of bounds"
    | some _ => do
      let frameCount := if f.lastSection then f.frameCount else f.frameCount + 1
      let (ds, _) ← readFramesLoop frameCount flags (initAnimatedFields flags data)
        offset.toNat f.bytes
      .ok ds

/-- `FrameAnimationRef::animation_data`. -/
noncomputable def frameAnimationData (f : FrameAnimationRefM) : Except Err (List BoneAnimationData) :=
  do
  let flags ← boneFlagsOf f
  let data1 ← readBoneConstants f flags (List.replicate flags.length default)
  readBoneFrames f flags data1

/-! ## Legacy run-length decoder (`AnimationRef`) -/

/-- `AnimationRef`: one block of the per-bone linked list. -/
structure AnimationRefM where
  boneIndex : Nat
  animFlags : UInt8
  offset : Nat
  frameCount : Nat
  bone : BoneM
  bytes : Bytes

/-- `AnimationRef::read_animation_constants`: `RAWROT2` (0x20), then
`RAWROT` (0x02), then `RAWPOS` (0x01). -/
noncomputable def readAnimationConstants (flags : UInt8) (b : Bytes) (c : Nat)
    (d : BoneAnimationData) : Except Err (BoneAnimationData × Nat) :=
  (if u8HasFlag flags 0x20 then
    takeBytesC b c 8 "animation constants out of bounds" >>= fun (bs, c') =>
      .ok ({ d with rotation := .constant (Quat.fromBytes64 bs) }, c')
  else .ok (d, c)) >>= fun (d1, c1) =>
  (if u8HasFlag flags 0x02 then
    parseSliceMutU16 b c1 3 "animation constants out of bounds" >>= fun (us, c') =>
      let q := Quat.fromU16s (us.getD 0 0) (us.getD 1 0) (us.getD 2 0)
      .ok ({ d1 with rotation := .constant q }, c')
  else .ok (d1, c1)) >>= fun (d2, c2) =>
  if u8HasFlag flags 0x01 then
    parseSliceMutU16 b c2 3 "animation constants out of bounds" >>= fun (us, c') =>
      let v := Vec3.fromU16s (us.getD 0 0) (us.getD 1 0) (us.getD 2 0)
      .ok ({ d2 with position := .constant v }, c')
  else .ok (d2, c2)

/-- Read one axis's run-length curve: `reference_bytes.get(off..)` followed
by `read_animation_values`. -/
def readAxisValues (frameCount : Nat) (b : Bytes) (ref : Nat) (axisOffset : Int)
    (msg : String) : Except Err (List AnimationValue) :=
  match sliceFrom b ((ref : Int) + axisOffset) with
  | Option.none => corruptedE msg
  | some s => readAnimationValues frameCount s

/-- `frame.x = extract_animation_value(i, values, scale)` over all frames. -/
def setAxisX (frames : List Vec3) (vals : List AnimationValue) (scale : ℚ) : List Vec3 :=
  frames.mapIdx (fun i v => { v with x := extractAnimationValue i vals scale })

/-- `frame.y = extract_animation_value(i, values, scale)` over all frames. -/
def setAxisY (frames : List Vec3) (vals : List AnimationValue) (scale : ℚ) : List Vec3 :=
  frames.mapIdx (fun i v => { v with y := extractAnimationValue i vals scale })

/-- `frame.z = extract_animation_value(i, values, scale)` over all frames. -/
def setAxisZ (frames : List Vec3) (vals : List AnimationValue) (scale : ℚ) : List Vec3 :=
  frames.mapIdx (fun i v => { v with z := extractAnimationValue i vals scale })

/-- The shared shape of the `ANIMROT` / `ANIMPOS` branches of
`read_animation_frames`: read the three `i16` axis offsets, build
`frame_count` default vectors, fill each axis whose offset is positive,
then add the bone's per-axis rest value. -/
def readRunLengthFrames (a : AnimationRefM) (c : Nat) (scale rest : Vec3)
    (msgX msgY msgZ : String) : Except Err (List Vec3 × Nat) :=
  parseMutI16 a.bytes c "animation offsets out of bounds" >>= fun (xOffset, c1) =>
  parseMutI16 a.bytes c1 "animation offsets out of bounds" >>= fun (yOffset, c2) =>
  parseMutI16 a.bytes c2 "animation offsets out of bounds" >>= fun (zOffset, c3) =>
  (if 0 < xOffset then
    readAxisValues a.frameCount a.bytes c xOffset msgX >>= fun vals =>
      .ok (setAxisX (List.replicate a.frameCount Vec3.zero) vals scale.x)
  else .ok (List.replicate a.frameCount Vec3.zero)) >>= fun frames1 =>
  (if 0 < yOffset then
    readAxisValues a.frameCount a.bytes c yOffset msgY >>= fun vals =>
      .ok (setAxisY frames1 vals scale.y)
  else .ok frames1) >>= fun frames2 =>
  (if 0 < zOffset then
    readAxisValues a.frameCount a.bytes c zOffset msgZ >>= fun vals =>
      .ok (setAxisZ frames2 vals scale.z)
  else .ok frames2) >>= fun frames3 =>
  .ok (frames3.map (fun v => ⟨v.x + rest.x, v.y + rest.y, v.z + rest.z⟩), c3)

/-- `AnimationRef::read_animation_frames`: the `ANIMROT` (0x08) branch
produces per-frame Euler rotations, the `ANIMPOS` (0x04) branch per-frame
positions. -/
noncomputable def readAnimationFrames (a : AnimationRefM) (d : BoneAnimationData)
    (c : Nat) : Except Err BoneAnimationData :=
  (if u8HasFlag a.animFlags 0x08 then
    readRunLengthFrames a c a.bone.rotationScale a.bone.rotation
        "animation rotation x values out of bounds"
        "animation rotation y values out of bounds"
        "animation rotation z values out of bounds" >>= fun (frames, c') =>
      .ok ({ d with rotation := .animatedEuler frames }, c')
  else .ok (d, c)) >>= fun (d1, c1) =>
  if u8HasFlag a.animFlags 0x04 then
    readRunLengthFrames a c1 a.bone.positionScale a.bone.position
        "animation position x values out of bounds"
        "animation position y values out of bounds"
        "animation position z values out of bounds" >>= fun (frames, _) =>
      .ok { d1 with position := .animated frames }
  else .ok d1

/-- `AnimationRef::animation_data`.  (The initial cursor is
`offset + size_of::<Animation>()`, which is in bounds whenever the block
header parse that produced this `AnimationRefM` succeeded.) -/
noncomputable def legacyAnimationData (a : AnimationRefM) : Except Err BoneAnimationData :=
  do
  let (d1, c1) ← readAnimationConstants a.animFlags a.bytes (a.offset + 4) default
  readAnimationFrames a d1 c1

/-- Parse one `Animation` block header (`bone_index: u8`, `flags: u8`,
`next_offset: i16`; size 4, alignment 2) at absolute position `c`. -/
def parseAnimationAt (b : Bytes) (c : Int) : Option (Nat × UInt8 × Int) :=
  if parseRangeOk b c 4 2 then
    some (readU8 b c.toNat, b.getD (c.toNat + 1) 0, readI16le b (c.toNat + 2))
  else none

/-- The linked-list walk of `iter_bone_animations`, combined with the
per-block decode its consumer (`AnimationSectionRef::data`) performs via
`try_collect`.  Each iteration either stops or advances the offset by
`next_offset ≥ 1` while the block-header parse requires `offset + 4 ≤ len`,
so at most `len` iterations happen; the explicit `fuel` (structural
recursion, so the kernel can evaluate the definition) starting at `len + 1`
never runs out. -/
noncomputable def legacyLoopF : Nat → AnimationSectionRefM → Int →
    Except Err (List (Nat × BoneAnimationData))
  | 0, _, _ => .ok []
  | fuel + 1, s, c =>
    match parseAnimationAt s.bytes c with
    | Option.none => corruptedE "animation section animation out of bounds or misaligned"
    | some (bi, fl, next) =>
      if bi = 255 ∨ s.bones.length ≤ bi then .ok []
      else if next < 0 then
        corruptedE "animation section animation next offset is negative"
      else
        do
        let a : AnimationRefM :=
          ⟨bi, fl, c.toNat, s.frameCount, s.bones.getD bi default, s.bytes⟩
        let d ← legacyAnimationData a
        if next = 0 then .ok [(bi, d)]
        else do
          let rest ← legacyLoopF fuel s (c + next)
          .ok ((bi, d) :: rest)

/-- The legacy path of `AnimationSectionRef::data`:
`iter_bone_animations` + per-bone `animation_data`, collected in list
order. -/
noncomputable def legacyData (s : AnimationSectionRefM) :
    Except Err (List (Nat × BoneAnimationData)) :=
  legacyLoopF (s.bytes.length + 1) s s.animOffset

/-! ## `AnimationSectionRef::data` and `AnimationDescRef::data` -/

/-- Insertion into a `BTreeMap<usize, _>` modelled as a key-sorted
association list (later inserts of an existing key overwrite). -/
def btreeInsert {α : Type} (k : Nat) (v : α) : List (Nat × α) → List (Nat × α)
  | [] => [(k, v)]
  | (k', v') :: rest =>
    if k < k' then (k, v) :: (k', v') :: rest
    else if k = k' then (k, v) :: rest
    else (k', v') :: btreeInsert k v rest

/-- `collect::<BTreeMap<_, _>>()` over a list of key-value pairs. -/
def btreeOfList {α : Type} (l : List (Nat × α)) : List (Nat × α) :=
  l.foldl (fun m p => btreeInsert p.1 p.2 m) []

/-- The root-correction loop at the end of `AnimationSectionRef::data`:
every entry whose bone has a negative parent index is corrected in place.
(Both decode paths only produce keys below `bones.len()`, so the `getD`
default is never used where the source indexes `self.bones[bone_i]`.) -/
noncomputable def applyCorrectionsLoop (bones : List BoneM)
    (m : List (Nat × BoneAnimationData)) : List (Nat × BoneAnimationData) :=
  m.map (fun p =>
    if (bones.getD p.1 default).parentBoneIndex < 0
    then (p.1, p.2.applyRootCorrection) else p)

/-- The decode stage of `AnimationSectionRef::data`, before the
root-correction loop: the frame-animation path enumerated into (bone index,
data) pairs, or the legacy linked-list path. -/
noncomputable def rawSectionData (s : AnimationSectionRefM) (frameAnimation : Bool) :
    Except Err (List (Nat × BoneAnimationData)) :=
  if frameAnimation then do
    let f ← frameAnimationRef s
    let l ← frameAnimationData f
    .ok l.enum
  else legacyData s

/-- `AnimationSectionRef::data`. -/
noncomputable def sectionData (s : AnimationSectionRefM) (frameAnimation : Bool) :
    Except Err (List (Nat × BoneAnimationData)) :=
  do
  let l ← rawSectionData s frameAnimation
  .ok (applyCorrectionsLoop s.bones (btreeOfList l))

/-- `AnimationDescRef::data`. -/
noncomputable def AnimationDescRefM.data (r : AnimationDescRefM) :
    Except Err (Option (List (Nat × BoneAnimationData))) :=
  do
  let frameAnimation := hasFrameAnimFlag r.desc.flags
  match ← iterAnimationSections r with
  | some _ => .error (.unsupported "animation sections")
  | Option.none =>
    match ← animationSection r with
    | some sec => do
      let d ← sectionData sec frameAnimation
      .ok (some d)
    | Option.none => .ok Option.none

/-! ## Headers, name resolution, bones -/

/-- The fields of `Header1` the claims use: the fixed 64-byte name field
(at offset 12), `bone_count`/`bone_offset` (at 156/160) and
`header_2_offset` (at 392); `Header1` is 400 bytes. -/
structure Header1M where
  name : Bytes
  boneCount : Int
  boneOffset : Int
  header2Offset : Int
deriving DecidableEq

/-- `parse::<Header1>(bytes, 0)` (offset 0 is trivially aligned). -/
def parseHeader1 (b : Bytes) : Option Header1M :=
  if 400 ≤ b.length then
    some ⟨(b.drop 12).take 64, readI32le b 156, readI32le b 160, readI32le b 392⟩
  else none

/-- The field of `Header2` the claims use: `name_offset` (at offset 20
inside the 32-byte record). -/
structure Header2M where
  nameOffset : Int
deriving DecidableEq

/-- `parse::<Header2>(bytes, offset)`. -/
def parseHeader2 (b : Bytes) (offset : Int) : Option Header2M :=
  if parseRangeOk b offset 32 4 then some ⟨readI32le b (offset.toNat + 20)⟩
  else none

/-- `HeaderRef`. -/
structure HeaderRefM where
  header1 : Header1M
  header2 : Option Header2M
  bytes : Bytes

/-- `Mdl::header`. -/
def mdlHeader (b : Bytes) : Except Err HeaderRefM :=
  match parseHeader1 b with
  | Option.none => corruptedE "eof reading header"
  | some h1 =>
    if h1.header2Offset > 0 then
      match parseHeader2 b h1.header2Offset with
      | Option.none => corruptedE "header 2 out of bounds or misaligned"
      | some h2 => .ok ⟨h1, some h2, b⟩
    else .ok ⟨h1, Option.none, b⟩

/-- The fallback branch of `HeaderRef::name`: the primary header's fixed
64-byte NUL-terminated name field (a field with no NUL is an `expect`
panic in the source). -/
def primaryName (h : HeaderRefM) : Except Err Bytes :=
  match nullTerminated h.header1.name with
  | Option.none => .error (.panicked "name can not be empty")
  | some p => if utf8Valid p then .ok p else corruptedE "header name is not valid utf8"

/-- The extension-name branch of `HeaderRef::name`: the NUL-terminated,
UTF-8-checked prefix at absolute position `offset`. -/
def nameAt (b : Bytes) (offset : Int) : Except Err Bytes :=
  match sliceFrom b offset with
  | Option.none => corruptedE "header 2 name offset out of bounds"
  | some tail =>
    match nullTerminated tail with
    | Option.none => corruptedE "eof reading header 2 name"
    | some p =>
      if utf8Valid p then .ok p else corruptedE "header 2 name is not valid utf8"

/-- `HeaderRef::name`.  Note the extension-name base: `header_2_offset +
size_of::<Header2>() + name_offset`, i.e. the name offset is added to the
position just past the 32-byte extension header record. -/
def headerName (h : HeaderRefM) : Except Err Bytes :=
  match h.header2 with
  | some h2 =>
    if h2.nameOffset > 0 then
      nameAt h.bytes (h.header1.header2Offset + 32 + h2.nameOffset)
    else primaryName h
  | Option.none => primaryName h

/-- Decode the fields of a 216-byte `Bone` record the decoder uses:
`parent_bone_index` at +4, `position` at +32, `rotation` at +60,
`position_scale` at +72, `rotation_scale` at +84. -/
def decodeBone (b : Bytes) (o : Nat) : BoneM :=
  { parentBoneIndex := readI32le b (o + 4)
    position := ⟨readF32le b (o + 32), readF32le b (o + 36), readF32le b (o + 40)⟩
    rotation := ⟨readF32le b (o + 60), readF32le b (o + 64), readF32le b (o + 68)⟩
    positionScale := ⟨readF32le b (o + 72), readF32le b (o + 76), readF32le b (o + 80)⟩
    rotationScale := ⟨readF32le b (o + 84), readF32le b (o + 88), readF32le b (o + 92)⟩ }

/-- `HeaderRef::bones`: the bone table slice and its base offset. -/
def headerBones (h : HeaderRefM) : Except Err (List BoneM × Nat) :=
  match toNatOr h.header1.boneOffset "bone offset is negative" with
  | .error e => .error e
  | .ok offset =>
    match toNatOr h.header1.boneCount "bone count is negative" with
    | .error e => .error e
    | .ok count =>
      match parseSliceD h.bytes (offset : Int) count 216 4 decodeBone with
      | Option.none => corruptedE "bones out of bounds or misaligned"
      | some bones => .ok (bones, offset)

/-! ## Claim-statement helpers and concrete instances -/

/-- The name accessor as claim C5 words it (for comparison with
`headerName`): the extension name is used whenever the extension header is
present and its name offset is nonzero, and the offset is added to the file
position of the record that contains the field, i.e. the extension header's
start. -/
def headerNameClaimC5 (h : HeaderRefM) : Except Err Bytes :=
  match h.header2 with
  | some h2 =>
    if h2.nameOffset ≠ 0 then
      nameAt h.bytes (h.header1.header2Offset + h2.nameOffset)
    else primaryName h
  | Option.none => primaryName h

/-- Length of a per-frame (`Animated`) position curve, if the data is of
that shape. -/
def animatedPosLength (d : BoneAnimationData) : Option Nat :=
  match d.position with
  | .animated l => some l.length
  | _ => Option.none

/-- Length of a per-frame (`Animated`) rotation curve, if the data is of
that shape. -/
def animatedRotLength (d : BoneAnimationData) : Option Nat :=
  match d.rotation with
  | .animated l => some l.length
  | _ => Option.none

/-- Claim C1's counterexample descriptor: splitting configured
(`section_offset = 8`, `section_frame_count = 1`, `frame_count = 0`, hence
two section records), with both stored sections designating external chunk
storage (`anim_block = 1`), so no in-file section remains after
filtering. -/
def c1desc : AnimationDescRefM :=
  { desc := { flags := 0, frameCount := 0, animBlock := 0, animOffset := 0,
              sectionOffset := 8, sectionFrameCount := 1 }
    offset := 0
    bones := []
    bytes := [0, 0, 0, 0, 0, 0, 0, 0,
              1, 0, 0, 0, 0, 0, 0, 0,
              1, 0, 0, 0, 0, 0, 0, 0] }

/-- The curve of claim C2,
`[(total=3, valid=2, values=[5, 9]), (total=2, valid=0, values=[])]`,
in its stored form. -/
def c2Values : List AnimationValue :=
  [animValueOfHeader 3 2, ⟨5⟩, ⟨9⟩, animValueOfHeader 2 0]

/-- Claim C3's witness descriptor: `section_frame_count = 2`,
`frame_count = 5`, four zeroed section records at offset 8. -/
def c3desc : AnimationDescRefM :=
  { desc := { flags := 0, frameCount := 5, animBlock := 0, animOffset := 0,
              sectionOffset := 8, sectionFrameCount := 2 }
    offset := 0
    bones := []
    bytes := List.replicate 40 0 }

/-- The resolved `AnimationSectionsRef` of `c3desc`. -/
def c3sections : AnimationSectionsM :=
  ⟨List.replicate 4 ⟨0, 0⟩, 8, 0, [], List.replicate 40 0⟩

/-- A single root bone (negative parent index). -/
def c4bone : BoneM := ⟨-1, ⟨0, 0, 0⟩, ⟨0, 0, 0⟩, ⟨0, 0, 0⟩, ⟨0, 0, 0⟩⟩

/-- Claim C4's witness section: the legacy path reads one block for bone 0
with `RAWPOS` only; the three `f16` values are NaN-like (`0x7C01`), which
decode to 0. -/
def c4sec : AnimationSectionRefM :=
  ⟨0, 0, [c4bone], 1, true,
   [0x00, 0x01, 0x00, 0x00, 0x01, 0x7C, 0x01, 0x7C, 0x01, 0x7C]⟩

/-- Claim C7's witness frame-animation view: one bone, `ANIMPOS` (0x04)
only, two frames, final section; the `FrameAnimation` record points the
per-frame data at offset 28. -/
def c7f : FrameAnimationRefM :=
  ⟨⟨0, 28, 0⟩, 0, 1, 2, true,
   [0, 0, 0, 0, 28, 0, 0, 0, 0, 0, 0, 0, 0, 0, 0, 0, 0, 0, 0, 0, 0, 0, 0, 0,
    0x04, 0, 0, 0,
    0x01, 0x7C, 0x01, 0x7C, 0x01, 0x7C,
    0x01, 0x7C, 0x01, 0x7C, 0x01, 0x7C]⟩

/-- Claim C9's failing input: splitting configured with
`section_frame_count = 0` (which passes the `< 0` guard), so the section
count computation divides `frame_count` by zero. -/
def c9desc : AnimationDescRefM :=
  { desc := { flags := 0, frameCount := 1, animBlock := 0, animOffset := 0,
              sectionOffset := 4, sectionFrameCount := 0 }
    offset := 0
    bones := []
    bytes := [] }

/-- Claim C10's witness descriptor: trivial section configuration
(`section_offset = 0`) and external chunk storage (`anim_block = 7`). -/
def c10desc : AnimationDescRefM :=
  { desc := { flags := 0, frameCount := 3, animBlock := 7, animOffset := 0,
              sectionOffset := 0, sectionFrameCount := 5 }
    offset := 0
    bones := []
    bytes := [] }

/-- Claim C5's counterexample buffer: 440 zero bytes, with the primary name
field containing `"H"`, `header_2_offset = 400`, the extension header's
`name_offset = 4`, the byte `'A'` at 404 (= extension header start + 4)
and the byte `'B'` at 436 (= extension header start + 32 + 4). -/
def c5buf : Bytes :=
  (List.replicate 440 (0 : UInt8)).set 12 72 |>.set 392 0x90 |>.set 393 0x01
    |>.set 420 4 |>.set 404 65 |>.set 436 66

/-- The header view `Mdl::header` resolves on `c5buf`. -/
def c5hdr : HeaderRefM :=
  ⟨⟨(c5buf.drop 12).take 64, 0, 0, 400⟩, some ⟨4⟩, c5buf⟩

/-- `c5buf` with the extension `name_offset` field overwritten with −4:
nonzero but not positive, so the source falls back to the primary name. -/
def c5bufNeg : Bytes :=
  c5buf.set 420 0xFC |>.set 421 0xFF |>.set 422 0xFF |>.set 423 0xFF

/-- The header view `Mdl::header` resolves on `c5bufNeg`. -/
def c5hdrNeg : HeaderRefM :=
  ⟨⟨(c5bufNeg.drop 12).take 64, 0, 0, 400⟩, some ⟨-4⟩, c5bufNeg⟩

/-! # Theorems -/

/-! ## Generic `Except` inversion -/

theorem bind_eq_error {α β : Type} {x : Except Err α} {f : α → Except Err β} {e : Err}
    (h : x >>= f = .error e) : x = .error e ∨ ∃ a, x = .ok a ∧ f a = .error e := by
  cases x with
  | error e1 =>
    left
    have : e1 = e := by simpa [Bind.bind, Except.bind] using h
    rw [this]
  | ok a =>
    right
    exact ⟨a, rfl, by simpa [Bind.bind, Except.bind] using h⟩

theorem bind_eq_ok {α β : Type} {x : Except Err α} {f : α → Except Err β} {b : β}
    (h : x >>= f = .ok b) : ∃ a, x = .ok a ∧ f a = .ok b := by
  cases x with
  | error e1 => simp [Bind.bind, Except.bind] at h
  | ok a => exact ⟨a, rfl, by simpa [Bind.bind, Except.bind] using h⟩

/-! ## Claim C6: `check_signature` -/

/-- Claim C6, counterexample.  The claim says `check_signature` fails with
the invalid-signature error echoing the exact first four bytes for every
buffer that does not start with the magic.  Both parts fail: a 2-byte
buffer fails with a corruption error instead, and a buffer starting with
four `0xFF` bytes gets `from_utf8_lossy`-replaced bytes (four U+FFFD
encodings) echoed, not the exact bytes. -/
theorem claimC6_counterexample :
    checkSignature [0x49, 0x44] = .error (.corrupted "eof reading signature") ∧
    checkSignature [0xff, 0xff, 0xff, 0xff] =
      .error (.invalidSignature
        [0xef, 0xbf, 0xbd, 0xef, 0xbf, 0xbd, 0xef, 0xbf, 0xbd, 0xef, 0xbf, 0xbd]) ∧
    ([0xef, 0xbf, 0xbd, 0xef, 0xbf, 0xbd, 0xef, 0xbf, 0xbd, 0xef, 0xbf, 0xbd] : Bytes) ≠
      [0xff, 0xff, 0xff, 0xff] :=
  ⟨rfl, rfl, by decide⟩

/-- Claim C6, amended: `check_signature` succeeds iff the buffer has at
least four bytes and they equal the magic; a shorter buffer fails with the
eof corruption error; a long-enough buffer with the wrong magic fails with
the invalid-signature error carrying the lossy UTF-8 decoding of the first
four bytes (which is those exact bytes whenever they are valid UTF-8). -/
theorem claimC6_amended (b : Bytes) :
    (checkSignature b = .ok () ↔ 4 ≤ b.length ∧ b.take 4 = mdlMagic) ∧
    (b.length < 4 → checkSignature b = .error (.corrupted "eof reading signature")) ∧
    (4 ≤ b.length → b.take 4 ≠ mdlMagic →
      checkSignature b = .error (.invalidSignature (utf8Lossy (b.take 4)))) := by
  unfold checkSignature corruptedE
  by_cases h4 : 4 ≤ b.length
  · by_cases hm : b.take 4 = mdlMagic
    · exact ⟨by simp [h4, hm], fun h => absurd h4 (by omega), fun _ h => absurd hm h⟩
    · exact ⟨by simp [h4, hm], fun h => absurd h4 (by omega), fun _ _ => by simp [h4, hm]⟩
  · exact ⟨by simp [h4], fun _ => by simp [h4], fun h => absurd h h4⟩

/-- Witness for `claimC6_amended` at concrete buffers. -/
theorem claimC6_witness :
    checkSignature [0x49, 0x44, 0x53, 0x54, 0x00] = .ok () ∧
    checkSignature [0x41, 0x42, 0x43, 0x44] =
      .error (.invalidSignature (utf8Lossy [0x41, 0x42, 0x43, 0x44])) :=
  ⟨(claimC6_amended [0x49, 0x44, 0x53, 0x54, 0x00]).1.mpr ⟨by decide, by decide⟩,
   (claimC6_amended [0x41, 0x42, 0x43, 0x44]).2.2 (by decide) (by decide)⟩

/-! ## Claim C8: half-precision decode -/

/-- Claim C8: for every 16-bit input, an all-ones exponent with zero
mantissa decodes to sign × 65504, an all-ones exponent with nonzero
mantissa decodes to 0, and a zero exponent with nonzero mantissa decodes to
sign × (mantissa/1024)/16384. -/
theorem claimC8 (u : Nat) (_hu : u < 65536) :
    (u / 1024 % 32 = 31 → u % 1024 = 0 →
      f16ToF64 u = (if u / 32768 % 2 = 1 then (-1 : ℚ) else 1) * 65504) ∧
    (u / 1024 % 32 = 31 → u % 1024 ≠ 0 → f16ToF64 u = 0) ∧
    (u / 1024 % 32 = 0 → u % 1024 ≠ 0 →
      f16ToF64 u =
        (if u / 32768 % 2 = 1 then (-1 : ℚ) else 1) * (((u % 1024 : Nat) : ℚ) / 1024) / 16384) := by
  unfold f16ToF64
  refine ⟨fun h1 h2 => ?_, fun h1 h2 => ?_, fun h1 h2 => ?_⟩ <;>
    simp [h1, h2]

/-- Witness for `claimC8` at 0xFC00 (−∞ bit pattern), 0x7C01 (NaN bit
pattern) and 0x8001 (negative subnormal). -/
theorem claimC8_witness :
    f16ToF64 0xFC00 = -65504 ∧ f16ToF64 0x7C01 = 0 ∧
    f16ToF64 0x8001 = -((1 : ℚ) / 1024) / 16384 := by
  have h1 := (claimC8 0xFC00 (by decide)).1 (by decide) (by decide)
  have h2 := (claimC8 0x7C01 (by decide)).2.1 (by decide) (by decide)
  have h3 := (claimC8 0x8001 (by decide)).2.2 (by decide) (by decide)
  refine ⟨?_, h2, ?_⟩
  · simpa using h1
  · simpa using h3

/-! ## Claim C9: the decoder can panic -/

/-- Claim C9 is broken by the code: a descriptor with a nonzero
`section_offset` and `section_frame_count = 0` (which passes the `< 0`
guard) drives `frame_count / section_frame_count` into a division by zero,
a panic rather than a corruption error. -/
theorem claimC9_divide_by_zero :
    c9desc.data = .error (.panicked "attempt to divide by zero") ∧
    c9desc.desc.sectionOffset ≠ 0 ∧ c9desc.desc.sectionFrameCount = 0 :=
  ⟨rfl, by decide, rfl⟩

/-! ## Claim C10: externally chunked single-block animations -/

/-- Claim C10: a descriptor with a trivial section configuration
(`section_offset = 0` or a negative `section_frame_count`) and a nonzero
`anim_block` decodes to success with no data. -/
theorem claimC10 (r : AnimationDescRefM)
    (h1 : r.desc.sectionOffset = 0 ∨ r.desc.sectionFrameCount < 0)
    (h2 : r.desc.animBlock ≠ 0) :
    r.data = .ok Option.none := by
  unfold AnimationDescRefM.data iterAnimationSections animationSections animationSection
  rw [if_pos h1, if_pos h2]
  rfl

/-- Witness for `claimC10`. -/
theorem claimC10_witness : c10desc.data = .ok Option.none :=
  claimC10 c10desc (Or.inl rfl) (by decide)

/-! ## Claim C1: the unsupported-feature error for sectioned animations

The "only if" direction of the amended claim needs to know that no other
part of the decoder produces an `unsupported` error; the following chain of
lemmas establishes that every error produced below `AnimationDescRef::data`
is a corruption error or a panic. -/

theorem toNatOr_err {n : Int} {msg : String} {e : Err} (h : toNatOr n msg = .error e) :
    e.isUnsupported = false := by
  unfold toNatOr corruptedE at h
  split at h
  all_goals cases h
  rfl

theorem rustI32Div_err {a b : Int} {e : Err} (h : rustI32Div a b = .error e) :
    e.isUnsupported = false := by
  unfold rustI32Div at h
  split at h
  all_goals cases h
  rfl

theorem animationSections_err {r : AnimationDescRefM} {e : Err}
    (h : animationSections r = .error e) : e.isUnsupported = false := by
  unfold animationSections corruptedE at h
  split at h
  · cases h
  · rcases bind_eq_error h with h | ⟨q, _, h⟩
    · exact rustI32Div_err h
    rcases bind_eq_error h with h | ⟨count, _, h⟩
    · exact toNatOr_err h
    split at h
    all_goals cases h
    rfl

theorem iterAnimationSections_err {r : AnimationDescRefM} {e : Err}
    (h : iterAnimationSections r = .error e) : e.isUnsupported = false := by
  unfold iterAnimationSections at h
  rcases bind_eq_error h with h | ⟨o, _, h⟩
  · exact animationSections_err h
  cases o with
  | none => cases h
  | some sections =>
    rcases bind_eq_error h with h | ⟨sfc, _, h⟩
    · exact toNatOr_err h
    rcases bind_eq_error h with h | ⟨fc, _, h⟩
    · exact toNatOr_err h
    cases h

theorem animationSection_err {r : AnimationDescRefM} {e : Err}
    (h : animationSection r = .error e) : e.isUnsupported = false := by
  unfold animationSection at h
  split at h
  · cases h
  · rcases bind_eq_error h with h | ⟨fc, _, h⟩
    · exact toNatOr_err h
    cases h

theorem readAnimationValue_err {b : Bytes} {e : Err}
    (h : readAnimationValue b = .error e) : e.isUnsupported = false := by
  unfold readAnimationValue corruptedE at h
  split at h
  all_goals cases h
  rfl

theorem readAnimationValuesN_err : ∀ {n : Nat} {b : Bytes} {e : Err},
    readAnimationValuesN n b = .error e → e.isUnsupported = false := by
  intro n
  induction n with
  | zero => intro b e h; cases h
  | succ n ih =>
    intro b e h
    unfold readAnimationValuesN at h
    rcases bind_eq_error h with h | ⟨⟨v, b1⟩, _, h⟩
    · exact readAnimationValue_err h
    rcases bind_eq_error h with h | ⟨⟨vs, b2⟩, _, h⟩
    · exact ih h
    cases h

theorem readAnimationValuesAux_err : ∀ {fuel fc : Nat} {b : Bytes} {t : Nat} {e : Err},
    readAnimationValuesAux fuel fc b t = .error e → e.isUnsupported = false := by
  intro fuel
  induction fuel with
  | zero => intro fc b t e h; cases h
  | succ n ih =>
    intro fc b t e h
    unfold readAnimationValuesAux at h
    split at h
    · rcases bind_eq_error h with h | ⟨⟨v, b1⟩, _, h⟩
      · exact readAnimationValue_err h
      simp only [] at h
      split at h
      · cases h
      · rcases bind_eq_error h with h | ⟨⟨vs, b2⟩, _, h⟩
        · exact readAnimationValuesN_err h
        rcases bind_eq_error h with h | ⟨rest, _, h⟩
        · exact ih h
        cases h
    · cases h

theorem readAnimationValues_err {fc : Nat} {b : Bytes} {e : Err}
    (h : readAnimationValues fc b = .error e) : e.isUnsupported = false :=
  readAnimationValuesAux_err h

theorem takeBytesC_err {b : Bytes} {c n : Nat} {msg : String} {e : Err}
    (h : takeBytesC b c n msg = .error e) : e.isUnsupported = false := by
  unfold takeBytesC corruptedE at h
  split at h
  all_goals cases h
  rfl

theorem parseSliceMutU16_err {b : Bytes} {c n : Nat} {msg : String} {e : Err}
    (h : parseSliceMutU16 b c n msg = .error e) : e.isUnsupported = false := by
  unfold parseSliceMutU16 corruptedE at h
  split at h
  all_goals cases h
  rfl

theorem parseSliceMutF32_err {b : Bytes} {c n : Nat} {msg : String} {e : Err}
    (h : parseSliceMutF32 b c n msg = .error e) : e.isUnsupported = false := by
  unfold parseSliceMutF32 corruptedE at h
  split at h
  all_goals cases h
  rfl

theorem parseMutI16_err {b : Bytes} {c : Nat} {msg : String} {e : Err}
    (h : parseMutI16 b c msg = .error e) : e.isUnsupported = false := by
  unfold parseMutI16 corruptedE at h
  split at h
  all_goals cases h
  rfl

theorem pushRotationFrame_err {d : BoneAnimationData} {q : Quat} {e : Err}
    (h : pushRotationFrame d q = .error e) : e.isUnsupported = false := by
  unfold pushRotationFrame at h
  split at h
  all_goals cases h
  rfl

theorem pushPositionFrame_err {d : BoneAnimationData} {v : Vec3} {e : Err}
    (h : pushPositionFrame d v = .error e) : e.isUnsupported = false := by
  unfold pushPositionFrame at h
  split at h
  all_goals cases h
  rfl

theorem readConstantsBone_err {fl : UInt8} {d : BoneAnimationData} {c : Nat}
    {b : Bytes} {e : Err} (h : readConstantsBone fl d c b = .error e) :
    e.isUnsupported = false := by
  unfold readConstantsBone at h
  rcases bind_eq_error h with h | ⟨⟨d1, c1⟩, _, h⟩
  · split at h
    · rcases bind_eq_error h with h | ⟨⟨bs, c'⟩, _, h⟩
      · exact takeBytesC_err h
      cases h
    · cases h
  simp only [] at h
  rcases bind_eq_error h with h | ⟨⟨d2, c2⟩, _, h⟩
  · split at h
    · rcases bind_eq_error h with h | ⟨⟨us, c'⟩, _, h⟩
      · exact parseSliceMutU16_err h
      simp only [] at h
      cases h
    · cases h
  simp only [] at h
  split at h
  · rcases bind_eq_error h with h | ⟨⟨us, c'⟩, _, h⟩
    · exact parseSliceMutU16_err h
    simp only [] at h
    cases h
  · cases h

theorem readConstantsLoop_err : ∀ {fs : List UInt8} {ds : List BoneAnimationData}
    {c : Nat} {b : Bytes} {e : Err},
    readConstantsLoop fs ds c b = .error e → e.isUnsupported = false := by
  intro fs
  induction fs with
  | nil => intro ds c b e h; cases h
  | cons fl fs ih =>
    intro ds c b e h
    cases ds with
    | nil => cases h
    | cons d ds =>
      unfold readConstantsLoop at h
      rcases bind_eq_error h with h | ⟨⟨d1, c1⟩, _, h⟩
      · exact readConstantsBone_err h
      rcases bind_eq_error h with h | ⟨⟨ds1, c2⟩, _, h⟩
      · exact ih h
      cases h

theorem readBoneConstants_err {f : FrameAnimationRefM} {flags : List UInt8}
    {data : List BoneAnimationData} {e : Err}
    (h : readBoneConstants f flags data = .error e) : e.isUnsupported = false := by
  unfold readBoneConstants corruptedE at h
  split at h
  · cases h
  · simp only [] at h
    split at h
    · cases h
      rfl
    · rcases bind_eq_error h with h | ⟨⟨ds, c⟩, _, h⟩
      · exact readConstantsLoop_err h
      simp only [] at h
      cases h

theorem readFrameBone_err {fl : UInt8} {d : BoneAnimationData} {c : Nat}
    {b : Bytes} {e : Err} (h : readFrameBone fl d c b = .error e) :
    e.isUnsupported = false := by
  unfold readFrameBone at h
  rcases bind_eq_error h with h | ⟨⟨d1, c1⟩, _, h⟩
  · split at h
    · rcases bind_eq_error h with h | ⟨⟨bs, c'⟩, _, h⟩
      · exact takeBytesC_err h
      simp only [] at h
      rcases bind_eq_error h with h | ⟨d', _, h⟩
      · exact pushRotationFrame_err h
      cases h
    · cases h
  simp only [] at h
  rcases bind_eq_error h with h | ⟨⟨d2, c2⟩, _, h⟩
  · split at h
    · rcases bind_eq_error h with h | ⟨⟨us, c'⟩, _, h⟩
      · exact parseSliceMutU16_err h
      simp only [] at h
      rcases bind_eq_error h with h | ⟨d', _, h⟩
      · exact pushRotationFrame_err h
      cases h
    · cases h
  simp only [] at h
  rcases bind_eq_error h with h | ⟨⟨d3, c3⟩, _, h⟩
  · split at h
    · rcases bind_eq_error h with h | ⟨⟨us, c'⟩, _, h⟩
      · exact parseSliceMutU16_err h
      simp only [] at h
      rcases bind_eq_error h with h | ⟨d', _, h⟩
      · exact pushPositionFrame_err h
      cases h
    · cases h
  simp only [] at h
  split at h
  · rcases bind_eq_error h with h | ⟨⟨qs, c'⟩, _, h⟩
    · exact parseSliceMutF32_err h
    simp only [] at h
    rcases bind_eq_error h with h | ⟨d', _, h⟩
    · exact pushPositionFrame_err h
    cases h
  · cases h

theorem readFrameBonesLoop_err : ∀ {fs : List UInt8} {ds : List BoneAnimationData}
    {c : Nat} {b : Bytes} {e : Err},
    readFrameBonesLoop fs ds c b = .error e → e.isUnsupported = false := by
  intro fs
  induction fs with
  | nil => intro ds c b e h; cases h
  | cons fl fs ih =>
    intro ds c b e h
    cases ds with
    | nil => cases h
    | cons d ds =>
      unfold readFrameBonesLoop at h
      rcases bind_eq_error h with h | ⟨⟨d1, c1⟩, _, h⟩
      · exact readFrameBone_err h
      rcases bind_eq_error h with h | ⟨⟨ds1, c2⟩, _, h⟩
      · exact ih h
      cases h

theorem readFramesLoop_err : ∀ {n : Nat} {fs : List UInt8}
    {ds : List BoneAnimationData} {c : Nat} {b : Bytes} {e : Err},
    readFramesLoop n fs ds c b = .error e → e.isUnsupported = false := by
  intro n
  induction n with
  | zero => intro fs ds c b e h; cases h
  | succ n ih =>
    intro fs ds c b e h
    unfold readFramesLoop at h
    rcases bind_eq_error h with h | ⟨⟨ds1, c1⟩, _, h⟩
    · exact readFrameBonesLoop_err h
    exact ih h

theorem readBoneFrames_err {f : FrameAnimationRefM} {flags : List UInt8}
    {data : List BoneAnimationData} {e : Err}
    (h : readBoneFrames f flags data = .error e) : e.isUnsupported = false := by
  unfold readBoneFrames corruptedE at h
  split at h
  · cases h
  · simp only [] at h
    split at h
    · cases h
      rfl
    · rcases bind_eq_error h with h | ⟨⟨ds, c⟩, _, h⟩
      · exact readFramesLoop_err h
      simp only [] at h
      cases h

theorem boneFlagsOf_err {f : FrameAnimationRefM} {e : Err}
    (h : boneFlagsOf f = .error e) : e.isUnsupported = false := by
  unfold boneFlagsOf corruptedE at h
  simp only [] at h
  split at h
  all_goals cases h
  rfl

theorem frameAnimationRef_err {s : AnimationSectionRefM} {e : Err}
    (h : frameAnimationRef s = .error e) : e.isUnsupported = false := by
  unfold frameAnimationRef corruptedE at h
  split at h
  all_goals cases h
  rfl

theorem frameAnimationData_err {f : FrameAnimationRefM} {e : Err}
    (h : frameAnimationData f = .error e) : e.isUnsupported = false := by
  unfold frameAnimationData at h
  rcases bind_eq_error h with h | ⟨flags, _, h⟩
  · exact boneFlagsOf_err h
  rcases bind_eq_error h with h | ⟨data1, _, h⟩
  · exact readBoneConstants_err h
  exact readBoneFrames_err h

theorem readAxisValues_err {fc : Nat} {b : Bytes} {ref : Nat} {off : Int}
    {msg : String} {e : Err} (h : readAxisValues fc b ref off msg = .error e) :
    e.isUnsupported = false := by
  unfold readAxisValues corruptedE at h
  split at h
  · cases h
    rfl
  · exact readAnimationValues_err h

theorem readAnimationConstants_err {flags : UInt8} {b : Bytes} {c : Nat}
    {d : BoneAnimationData} {e : Err}
    (h : readAnimationConstants flags b c d = .error e) : e.isUnsupported = false := by
  unfold readAnimationConstants at h
  rcases bind_eq_error h with h | ⟨⟨d1, c1⟩, _, h⟩
  · split at h
    · rcases bind_eq_error h with h | ⟨⟨bs, c'⟩, _, h⟩
      · exact takeBytesC_err h
      cases h
    · cases h
  simp only [] at h
  rcases bind_eq_error h with h | ⟨⟨d2, c2⟩, _, h⟩
  · split at h
    · rcases bind_eq_error h with h | ⟨⟨us, c'⟩, _, h⟩
      · exact parseSliceMutU16_err h
      simp only [] at h
      cases h
    · cases h
  simp only [] at h
  split at h
  · rcases bind_eq_error h with h | ⟨⟨us, c'⟩, _, h⟩
    · exact parseSliceMutU16_err h
    simp only [] at h
    cases h
  · cases h

theorem readRunLengthFrames_err {a : AnimationRefM} {c : Nat} {scale rest : Vec3}
    {mx my mz : String} {e : Err}
    (h : readRunLengthFrames a c scale rest mx my mz = .error e) :
    e.isUnsupported = false := by
  unfold readRunLengthFrames at h
  rcases bind_eq_error h with h | ⟨⟨xo, c1⟩, _, h⟩
  · exact parseMutI16_err h
  rcases bind_eq_error h with h | ⟨⟨yo, c2⟩, _, h⟩
  · exact parseMutI16_err h
  rcases bind_eq_error h with h | ⟨⟨zo, c3⟩, _, h⟩
  · exact parseMutI16_err h
  rcases bind_eq_error h with h | ⟨f1, _, h⟩
  · split at h
    · rcases bind_eq_error h with h | ⟨vals, _, h⟩
      · exact readAxisValues_err h
      cases h
    · cases h
  rcases bind_eq_error h with h | ⟨f2, _, h⟩
  · split at h
    · rcases bind_eq_error h with h | ⟨vals, _, h⟩
      · exact readAxisValues_err h
      cases h
    · cases h
  rcases bind_eq_error h with h | ⟨f3, _, h⟩
  · split at h
    · rcases bind_eq_error h with h | ⟨vals, _, h⟩
      · exact readAxisValues_err h
      cases h
    · cases h
  cases h

theorem readAnimationFrames_err {a : AnimationRefM} {d : BoneAnimationData}
    {c : Nat} {e : Err} (h : readAnimationFrames a d c = .error e) :
    e.isUnsupported = false := by
  unfold readAnimationFrames at h
  rcases bind_eq_error h with h | ⟨⟨d1, c1⟩, _, h⟩
  · split at h
    · rcases bind_eq_error h with h | ⟨⟨frames, c'⟩, _, h⟩
      · exact readRunLengthFrames_err h
      simp only [] at h
      cases h
    · cases h
  simp only [] at h
  split at h
  · rcases bind_eq_error h with h | ⟨⟨frames, c'⟩, _, h⟩
    · exact readRunLengthFrames_err h
    simp only [] at h
    cases h
  · cases h

theorem legacyAnimationData_err {a : AnimationRefM} {e : Err}
    (h : legacyAnimationData a = .error e) : e.isUnsupported = false := by
  unfold legacyAnimationData at h
  rcases bind_eq_error h with h | ⟨⟨d1, c1⟩, _, h⟩
  · exact readAnimationConstants_err h
  exact readAnimationFrames_err h

theorem legacyLoopF_err : ∀ {fuel : Nat} {s : AnimationSectionRefM} {c : Int} {e : Err},
    legacyLoopF fuel s c = .error e → e.isUnsupported = false := by
  intro fuel
  induction fuel with
  | zero => intro s c e h; cases h
  | succ n ih =>
    intro s c e h
    unfold legacyLoopF corruptedE at h
    split at h
    · cases h
      rfl
    · split at h
      · cases h
      · split at h
        · cases h
          rfl
        · rcases bind_eq_error h with h | ⟨d, _, h⟩
          · exact legacyAnimationData_err h
          split at h
          · cases h
          · rcases bind_eq_error h with h | ⟨rest, _, h⟩
            · exact ih h
            cases h

theorem legacyData_err {s : AnimationSectionRefM} {e : Err}
    (h : legacyData s = .error e) : e.isUnsupported = false :=
  legacyLoopF_err h

theorem rawSectionData_err {s : AnimationSectionRefM} {fa : Bool} {e : Err}
    (h : rawSectionData s fa = .error e) : e.isUnsupported = false := by
  unfold rawSectionData at h
  split at h
  · rcases bind_eq_error h with h | ⟨f, _, h⟩
    · exact frameAnimationRef_err h
    rcases bind_eq_error h with h | ⟨l, _, h⟩
    · exact frameAnimationData_err h
    cases h
  · exact legacyData_err h

theorem sectionData_err {s : AnimationSectionRefM} {fa : Bool} {e : Err}
    (h : sectionData s fa = .error e) : e.isUnsupported = false := by
  unfold sectionData at h
  rcases bind_eq_error h with h | ⟨l, _, h⟩
  · exact rawSectionData_err h
  cases h

/-- Claim C1, counterexample.  The claim predicts that decoding fails with
the unsupported-feature error only when at least one in-file section
remains after filtering out external-chunk sections.  On `c1desc` both
stored sections designate external chunk storage, so the filtered list is
empty — yet decoding still fails with the unsupported error. -/
theorem claimC1_counterexample :
    c1desc.data = .error (.unsupported "animation sections") ∧
    iterAnimationSections c1desc = .ok (some []) :=
  ⟨rfl, rfl⟩

/-- Claim C1, amended: decoding a descriptor fails with the
"unsupported feature: animation sections" error if and only if the
descriptor's section configuration indicates splitting and the section
table resolves (i.e. `iter_animation_sections` yields `Some`), regardless
of how many in-file sections remain after filtering; in particular a result
degenerating to one — or even zero — in-file sections still fails. -/
theorem claimC1_amended (r : AnimationDescRefM) :
    r.data = .error (.unsupported "animation sections") ↔
    ∃ l, iterAnimationSections r = .ok (some l) := by
  constructor
  · intro h
    unfold AnimationDescRefM.data at h
    rcases bind_eq_error h with h | ⟨o, ho, h⟩
    · exact absurd (iterAnimationSections_err h) (by simp [Err.isUnsupported])
    cases o with
    | some l => exact ⟨l, ho⟩
    | none =>
      exfalso
      rcases bind_eq_error h with h | ⟨o2, ho2, h⟩
      · exact absurd (animationSection_err h) (by simp [Err.isUnsupported])
      cases o2 with
      | some sec =>
        rcases bind_eq_error h with h | ⟨d, _, h⟩
        · exact absurd (sectionData_err h) (by simp [Err.isUnsupported])
        cases h
      | none => cases h
  · rintro ⟨l, hl⟩
    unfold AnimationDescRefM.data
    rw [hl]
    rfl

/-- Witness for `claimC1_amended` (backward direction at `c1desc`). -/
theorem claimC1_witness :
    c1desc.data = .error (.unsupported "animation sections") :=
  (claimC1_amended c1desc).mpr ⟨[], rfl⟩

/-! ## Claim C4: root correction -/

/-- Claim C4: in every successfully decoded animation data map, the output
is exactly the decoded (pre-correction) map with the root correction
applied once to every entry whose bone has a negative parent index and to
no other entry; the correction touches every sample of the entry exactly
once, and on positions it sets `x = old.y`, `y = -old.x` and leaves `z`
unchanged.  This holds for both decoder paths, which `rawSectionData`
ranges over. -/
theorem claimC4 :
    (∀ (s : AnimationSectionRefM) (fa : Bool) (raw : List (Nat × BoneAnimationData)),
      rawSectionData s fa = .ok raw →
      sectionData s fa = .ok ((btreeOfList raw).map (fun p =>
        if (s.bones.getD p.1 default).parentBoneIndex < 0
        then (p.1, p.2.applyRootCorrection) else p))) ∧
    (∀ v : Vec3, v.applyRootPositionCorrection = ⟨v.y, -v.x, v.z⟩) ∧
    (∀ d : BoneAnimationData,
      d.applyRootCorrection.position = (match d.position with
        | .constant v => .constant v.applyRootPositionCorrection
        | .animated vs => .animated (vs.map Vec3.applyRootPositionCorrection)
        | .noData => .noData) ∧
      d.applyRootCorrection.rotation = (match d.rotation with
        | .constant q => .constant q.applyRootRotationCorrection
        | .animated qs => .animated (qs.map Quat.applyRootRotationCorrection)
        | .animatedEuler vs => .animatedEuler (vs.map Vec3.applyRootRotationCorrection)
        | .noData => .noData)) := by
  refine ⟨?_, ?_, ?_⟩
  · intro s fa raw h
    unfold sectionData applyCorrectionsLoop
    rw [h]
    rfl
  · intro v
    rfl
  · intro d
    obtain ⟨r, p⟩ := d
    exact ⟨by cases p <;> rfl, by cases r <;> rfl⟩

/-- Witness for `claimC4`: the legacy path on `c4sec` decodes bone 0 (a
root bone) to a constant position, and the final map applies the correction
to it exactly once. -/
theorem claimC4_witness :
    rawSectionData c4sec false = .ok [(0, ⟨.noData, .constant ⟨0, 0, 0⟩⟩)] ∧
    sectionData c4sec false =
      .ok [(0, BoneAnimationData.applyRootCorrection ⟨.noData, .constant ⟨0, 0, 0⟩⟩)] := by
  have h1 : rawSectionData c4sec false = .ok [(0, ⟨.noData, .constant ⟨0, 0, 0⟩⟩)] := rfl
  have h2 := claimC4.1 c4sec false _ h1
  exact ⟨h1, by simpa using h2⟩

/-! ## Claim C5: model name resolution -/

set_option maxRecDepth 40000 in
/-- Claim C5, counterexample.  On `c5buf`, the extension header starts at
400 with `name_offset = 4`; the claim resolves the name at 404 (`"A"`),
but the source resolves it at `400 + size_of::<Header2>() + 4 = 436`
(`"B"`).  On `c5bufNeg` the name offset is −4: nonzero, so the claim picks
the extension name, but the source requires a positive offset and falls
back to the primary header name (`"H"`). -/
theorem claimC5_counterexample :
    mdlHeader c5buf = .ok c5hdr ∧
    headerName c5hdr = .ok [66] ∧
    headerNameClaimC5 c5hdr = .ok [65] ∧
    mdlHeader c5bufNeg = .ok c5hdrNeg ∧
    headerName c5hdrNeg = .ok [72] ∧
    headerNameClaimC5 c5hdrNeg = .ok [] :=
  ⟨rfl, rfl, rfl, rfl, rfl, rfl⟩

/-- Claim C5, amended: the name accessor returns the extension header's
name exactly when the extension header is present and its name offset is
positive, and the offset is resolved against the end of the 32-byte
extension header record (its start plus its size), not against its start;
otherwise the primary header's fixed-size NUL-terminated name field is
used. -/
theorem claimC5_amended (h : HeaderRefM) :
    (∀ h2, h.header2 = some h2 → 0 < h2.nameOffset →
      headerName h = nameAt h.bytes (h.header1.header2Offset + 32 + h2.nameOffset)) ∧
    (∀ h2, h.header2 = some h2 → h2.nameOffset ≤ 0 → headerName h = primaryName h) ∧
    (h.header2 = Option.none → headerName h = primaryName h) ∧
    (∀ p, primaryName h = .ok p →
      nullTerminated h.header1.name = some p ∧ utf8Valid p = true) := by
  refine ⟨?_, ?_, ?_, ?_⟩
  · intro h2 hh2 hpos
    unfold headerName
    rw [hh2]
    simp only [if_pos (by exact_mod_cast hpos : h2.nameOffset > 0)]
  · intro h2 hh2 hle
    unfold headerName
    rw [hh2]
    simp only [if_neg (by omega : ¬h2.nameOffset > 0)]
  · intro hh2
    unfold headerName
    rw [hh2]
  · intro p hp
    unfold primaryName corruptedE at hp
    cases hnt : nullTerminated h.header1.name with
    | none => rw [hnt] at hp; cases hp
    | some q =>
      rw [hnt] at hp
      simp only [] at hp
      by_cases hv : utf8Valid q = true
      · rw [if_pos hv] at hp
        cases hp
        exact ⟨rfl, hv⟩
      · rw [if_neg hv] at hp
        cases hp

/-- Witness for `claimC5_amended` at the concrete header views of the
counterexample buffers. -/
theorem claimC5_witness :
    headerName c5hdr = nameAt c5hdr.bytes (c5hdr.header1.header2Offset + 32 + 4) ∧
    headerName c5hdrNeg = primaryName c5hdrNeg :=
  ⟨(claimC5_amended c5hdr).1 ⟨4⟩ rfl (by decide),
   (claimC5_amended c5hdrNeg).2.1 ⟨-4⟩ rfl (by decide)⟩

/-! ## Claim C3: section count and per-section frame counts -/

theorem parseSliceD_length {α : Type} {b : Bytes} {offset : Int}
    {count size align : Nat} {decode : Bytes → Nat → α} {l : List α}
    (h : parseSliceD b offset count size align decode = some l) :
    l.length = count := by
  unfold parseSliceD at h
  split at h
  · cases h
    simp
  · cases h

theorem i32Wrap_eq_self {n : Int} (h0 : 0 ≤ n) (h1 : n < 2147483648) :
    i32Wrap n = n := by
  unfold i32Wrap
  rw [Int.emod_eq_of_lt (by omega) (by omega)]
  omega

theorem animationSections_ok_some {r : AnimationDescRefM} {sections : AnimationSectionsM}
    (h : animationSections r = .ok (some sections)) :
    ∃ q count, rustI32Div r.desc.frameCount r.desc.sectionFrameCount = .ok q ∧
      toNatOr (i32Wrap (q + 2)) "calculated animation section count is negative" = .ok count ∧
      sections.animationSections.length = count := by
  unfold animationSections at h
  split at h
  · cases h
  · rcases bind_eq_ok h with ⟨q, hq, h⟩
    simp only [] at h
    rcases bind_eq_ok h with ⟨count, hc, h⟩
    cases hp : parseSliceD r.bytes ((r.offset : Int) + r.desc.sectionOffset) count 8 4
        decodeAnimationSection with
    | none => rw [hp] at h; cases h
    | some secs =>
      rw [hp] at h
      simp only [] at h
      cases h
      exact ⟨q, count, hq, hc, parseSliceD_length hp⟩

/-- Claim C3: when the split-section path resolves, the number of section
records equals `frame_count / section_frame_count + 2`; every section
except the last two contributes exactly `section_frame_count` frames, and
each of the last two contributes
`frame_count − (section_count − 2) × section_frame_count` frames. -/
theorem claimC3 (r : AnimationDescRefM) (sections : AnimationSectionsM) (sfc fc : Nat)
    (hsec : animationSections r = .ok (some sections))
    (hsfc : r.desc.sectionFrameCount = (sfc : Int))
    (hfc : r.desc.frameCount = (fc : Int))
    (hpos : 0 < sfc)
    (hnowrap : fc / sfc + 2 < 2147483648) :
    (resolvedSections sections sfc fc).length = fc / sfc + 2 ∧
    (∀ i s', (resolvedSections sections sfc fc).get? i = some s' →
      (i < fc / sfc → s'.frameCount = sfc) ∧
      (fc / sfc ≤ i → s'.frameCount = fc - (fc / sfc) * sfc)) := by
  obtain ⟨q, count, hq, hc, hlen⟩ := animationSections_ok_some hsec
  have hne : (sfc : Int) ≠ 0 := by exact_mod_cast hpos.ne'
  have hq' : q = ((fc / sfc : Nat) : Int) := by
    unfold rustI32Div at hq
    rw [hsfc, hfc, if_neg hne] at hq
    cases hq
    rfl
  have hcount : count = fc / sfc + 2 := by
    unfold toNatOr at hc
    rw [hq'] at hc
    rw [i32Wrap_eq_self (by positivity) (by exact_mod_cast hnowrap)] at hc
    rw [if_pos (by positivity)] at hc
    cases hc
    generalize fc / sfc = n
    omega
  have hlen' : sections.animationSections.length = fc / sfc + 2 := hlen.trans hcount
  constructor
  · unfold resolvedSections
    simp [hlen']
  · intro i s' hs'
    unfold resolvedSections at hs'
    rw [List.get?_map, List.get?_enum] at hs'
    cases hg : sections.animationSections.get? i with
    | none => rw [hg] at hs'; cases hs'
    | some sec =>
      rw [hg] at hs'
      simp only [Option.map_some'] at hs'
      cases hs'
      constructor
      · intro hi
        show (if i < sections.animationSections.length - 2 then sfc
              else fc - (sections.animationSections.length - 2) * sfc) = sfc
        rw [hlen', Nat.add_sub_cancel, if_pos hi]
      · intro hi
        show (if i < sections.animationSections.length - 2 then sfc
              else fc - (sections.animationSections.length - 2) * sfc)
            = fc - fc / sfc * sfc
        rw [hlen', Nat.add_sub_cancel, if_neg (by omega)]

/-- Witness for `claimC3` at `c3desc` (`frame_count = 5`,
`section_frame_count = 2`): four sections, frame counts 2, 2, 1, 1. -/
theorem claimC3_witness :
    animationSections c3desc = Except.ok (some c3sections) ∧
    ((resolvedSections c3sections 2 5).length = 5 / 2 + 2 ∧
      ∀ i s', (resolvedSections c3sections 2 5).get? i = some s' →
        (i < 5 / 2 → s'.frameCount = 2) ∧
        (5 / 2 ≤ i → s'.frameCount = 5 - 5 / 2 * 2)) :=
  ⟨rfl, claimC3 c3desc c3sections 2 5 rfl rfl rfl (by decide) (by decide)⟩

/-! ## Claim C2: the run-length value fetch -/

/-- One unfolding step of `extractLoop`. -/
theorem extractLoop_succ (fuel : Nat) (values : List AnimationValue) (i k : Nat) :
    extractLoop (fuel + 1) values i k =
      match values.get? i with
      | Option.none => Option.none
      | some v =>
        if k < v.total then some (i, k)
        else if v.total = 0 then Option.none
        else extractLoop fuel values (i + v.valid + 1) (k - v.total) := rfl

/-- `extractLoop` does not depend on the fuel once the fuel exceeds the
number of entries at or after the start index (each iteration moves the
index at least one entry forward). -/
theorem extractLoop_fuel (fuel fuel' : Nat) (values : List AnimationValue) (i k : Nat)
    (h : values.length - i < fuel) (h' : values.length - i < fuel') :
    extractLoop fuel values i k = extractLoop fuel' values i k := by
  induction fuel generalizing fuel' i k with
  | zero => omega
  | succ fuel ih =>
    cases fuel' with
    | zero => omega
    | succ fuel' =>
      rw [extractLoop_succ, extractLoop_succ]
      cases hg : values.get? i with
      | none => rfl
      | some v =>
        have hi : i < values.length := by
          by_contra hle
          rw [List.get?_eq_none.mpr (by omega)] at hg
          cases hg
        simp only []
        by_cases hk : k < v.total
        · rw [if_pos hk, if_pos hk]
        · rw [if_neg hk, if_neg hk]
          by_cases h0 : v.total = 0
          · rw [if_pos h0, if_pos h0]
          · rw [if_neg h0, if_neg h0]
            exact ih fuel' (i + v.valid + 1) (k - v.total) (by omega) (by omega)

/-- Starting `extractLoop` at index `d + i` is the same as walking the list
with the first `d` entries dropped, up to shifting the break index back. -/
theorem extractLoop_shift (fuel : Nat) (values : List AnimationValue) (d i k : Nat) :
    extractLoop fuel values (d + i) k =
      (extractLoop fuel (values.drop d) i k).map (fun p => (d + p.1, p.2)) := by
  induction fuel generalizing i k with
  | zero => rfl
  | succ fuel ih =>
    rw [extractLoop_succ, extractLoop_succ]
    simp only [List.get?_drop]
    cases hg : values.get? (d + i) with
    | none => rfl
    | some v =>
      simp only []
      by_cases hk : k < v.total
      · rw [if_pos hk, if_pos hk]
        rfl
      · rw [if_neg hk, if_neg hk]
        by_cases h0 : v.total = 0
        · rw [if_pos h0, if_pos h0]
          rfl
        · rw [if_neg h0, if_neg h0]
          have harith : d + i + v.valid + 1 = d + (i + v.valid + 1) := by omega
          rw [harith]
          exact ih (i + v.valid + 1) (k - v.total)

/-- `extractLoop_shift` specialised to a start index with nothing consumed
on the dropped side. -/
theorem extractLoop_drop (fuel : Nat) (values : List AnimationValue) (d k : Nat) :
    extractLoop fuel values d k =
      (extractLoop fuel (values.drop d) 0 k).map (fun p => (d + p.1, p.2)) := by
  have h := extractLoop_shift fuel values d 0 k
  simpa using h

/-- Counterexample to claim C2 as stated: the example curve does decode
from the documented byte stream, but frame 3 fetches `512`, not `0`: the
covering run has `valid = 0`, and "the last explicit value of that run" is
resolved as index `i + valid = i`, i.e. the header entry itself, whose raw
16-bit value is `0x0200 = 512`. -/
theorem claimC2_counterexample :
    readAnimationValues 5 [2, 3, 5, 0, 9, 0, 0, 2] = .ok c2Values ∧
    extractAnimationValue 3 c2Values 1 = 512 ∧ (512 : ℚ) ≠ 0 := by
  refine ⟨rfl, ?_, by norm_num⟩
  show (((512 : Nat) : Int) : ℚ) * 1 = 512
  norm_num

/-- Claim C2 (amended): for the example curve (as decoded from its byte
stream), frames 0, 1, 2 fetch 5, 9, 9, but frames 3 and 4 fetch 512 (the
header entry of the `valid = 0` run, read back as a value), not 0.  In
general: the fetch of frame `k` on an empty curve is 0; a leading header
with `total = 0` gives 0; if `k < total` of the leading header, the entry
at index `k + 1` (when `k < valid`) or `valid` (otherwise) is scaled, a
missing entry giving 0; and if `0 < total ≤ k`, the walk continues past the
header and its `valid` explicit values with `k` reduced by `total`. -/
theorem claimC2_amended :
    (readAnimationValues 5 [2, 3, 5, 0, 9, 0, 0, 2] = .ok c2Values ∧
      extractAnimationValue 0 c2Values 1 = 5 ∧
      extractAnimationValue 1 c2Values 1 = 9 ∧
      extractAnimationValue 2 c2Values 1 = 9 ∧
      extractAnimationValue 3 c2Values 1 = 512 ∧
      extractAnimationValue 4 c2Values 1 = 512) ∧
    (∀ k s, extractAnimationValue k [] s = 0) ∧
    (∀ v vs k s, v.total = 0 → extractAnimationValue k (v :: vs) s = 0) ∧
    (∀ v vs k s, k < v.total →
      extractAnimationValue k (v :: vs) s =
        match (v :: vs).get? (if k < v.valid then k + 1 else v.valid) with
        | Option.none => 0
        | some v' => (v'.value : ℚ) * s) ∧
    (∀ v vs k s, v.total ≤ k → v.total ≠ 0 →
      extractAnimationValue k (v :: vs) s =
        extractAnimationValue (k - v.total) (vs.drop v.valid) s) := by
  refine ⟨⟨rfl, ?_, ?_, ?_, ?_, ?_⟩, ?_, ?_, ?_, ?_⟩
  · show (((5 : Int) : ℚ)) * 1 = 5
    norm_num
  · show (((9 : Int) : ℚ)) * 1 = 9
    norm_num
  · show (((9 : Int) : ℚ)) * 1 = 9
    norm_num
  · show (((512 : Nat) : Int) : ℚ) * 1 = 512
    norm_num
  · show (((512 : Nat) : Int) : ℚ) * 1 = 512
    norm_num
  · intro k s
    rfl
  · intro v vs k s h0
    have hnone : extractLoop ((v :: vs).length + 1) (v :: vs) 0 k = Option.none := by
      rw [extractLoop_succ]
      simp only [List.get?_cons_zero]
      rw [if_neg (by omega), if_pos h0]
    unfold extractAnimationValue
    rw [hnone]
  · intro v vs k s hk
    have hbreak : extractLoop ((v :: vs).length + 1) (v :: vs) 0 k = some (0, k) := by
      rw [extractLoop_succ]
      simp only [List.get?_cons_zero]
      rw [if_pos hk]
    unfold extractAnimationValue
    rw [hbreak]
    simp only [List.get?_cons_zero, Nat.zero_add]
  · intro v vs k s hle h0
    unfold extractAnimationValue
    rw [extractLoop_succ]
    simp only [List.get?_cons_zero, Nat.zero_add]
    rw [if_neg (by omega), if_neg h0]
    rw [extractLoop_drop ((v :: vs).length) (v :: vs) (v.valid + 1) (k - v.total)]
    simp only [List.drop_succ_cons]
    rw [extractLoop_fuel ((v :: vs).length) ((vs.drop v.valid).length + 1)
        (vs.drop v.valid) 0 (k - v.total)
        (by simp only [List.length_cons, List.length_drop]; omega) (by omega)]
    have hgd : ∀ m, (vs.drop v.valid).get? m = (v :: vs).get? (v.valid + 1 + m) := by
      intro m
      rw [← List.drop_succ_cons, List.get?_drop]
    cases hres : extractLoop ((vs.drop v.valid).length + 1) (vs.drop v.valid) 0
        (k - v.total) with
    | none => rfl
    | some p =>
      obtain ⟨i', k'⟩ := p
      simp only [Option.map_some']
      simp only [hgd]
      cases hb : (v :: vs).get? (v.valid + 1 + i') with
      | none => rfl
      | some vb =>
        simp only []
        by_cases hc : k' < vb.valid
        · rw [if_pos hc, if_pos hc]
          have harith : v.valid + 1 + i' + k' + 1 = v.valid + 1 + (i' + k' + 1) := by omega
          rw [harith]
        · rw [if_neg hc, if_neg hc]
          have harith : v.valid + 1 + i' + vb.valid = v.valid + 1 + (i' + vb.valid) := by
            omega
          rw [harith]

/-- Witness for the final part of `claimC2_amended` at the example curve:
frame 4 on the full curve reduces to frame 1 on the curve with the first
run (header plus two explicit values) consumed. -/
theorem claimC2_witness :
    extractAnimationValue 4 c2Values 1 =
      extractAnimationValue 1 ([⟨5⟩, ⟨9⟩, animValueOfHeader 2 0].drop 2) 1 :=
  claimC2_amended.2.2.2.2 (animValueOfHeader 3 2) [⟨5⟩, ⟨9⟩, animValueOfHeader 2 0]
    4 1 (by decide) (by decide)

/-! ## Claim C7: frame counts in the per-frame decoder -/

theorem pushRotationFrame_ok {d d' : BoneAnimationData} {q : Quat}
    (h : pushRotationFrame d q = .ok d') :
    (∃ qs, d.rotation = .animated qs ∧ d'.rotation = .animated (qs ++ [q])) ∧
    d'.position = d.position := by
  unfold pushRotationFrame at h
  cases hr : d.rotation with
  | animated qs =>
    rw [hr] at h
    cases h
    exact ⟨⟨qs, rfl, rfl⟩, rfl⟩
  | constant q0 => rw [hr] at h; cases h
  | animatedEuler fs => rw [hr] at h; cases h
  | noData => rw [hr] at h; cases h

theorem pushPositionFrame_ok {d d' : BoneAnimationData} {v : Vec3}
    (h : pushPositionFrame d v = .ok d') :
    (∃ vs, d.position = .animated vs ∧ d'.position = .animated (vs ++ [v])) ∧
    d'.rotation = d.rotation := by
  unfold pushPositionFrame at h
  cases hp : d.position with
  | animated vs =>
    rw [hp] at h
    cases h
    exact ⟨⟨vs, rfl, rfl⟩, rfl⟩
  | constant v0 => rw [hp] at h; cases h
  | noData => rw [hp] at h; cases h

/-- Effect of one bone's step of the per-frame loop on an `ok` run: each of
the four flag bits appends exactly one frame to the corresponding
(necessarily already `animated`) field, and unflagged fields are left
unchanged. -/
theorem readFrameBone_ok {fl : UInt8} {d d' : BoneAnimationData} {c c' : Nat} {b : Bytes}
    (hcanR : ¬(u8HasFlag fl 0x80 = true ∧ u8HasFlag fl 0x08 = true))
    (hcanP : ¬(u8HasFlag fl 0x04 = true ∧ u8HasFlag fl 0x10 = true))
    (h : readFrameBone fl d c b = .ok (d', c')) :
    ((u8HasFlag fl 0x80 || u8HasFlag fl 0x08) = false → d'.rotation = d.rotation) ∧
    ((u8HasFlag fl 0x80 || u8HasFlag fl 0x08) = true →
      ∀ qs, d.rotation = .animated qs → ∃ q, d'.rotation = .animated (qs ++ [q])) ∧
    ((u8HasFlag fl 0x04 || u8HasFlag fl 0x10) = false → d'.position = d.position) ∧
    ((u8HasFlag fl 0x04 || u8HasFlag fl 0x10) = true →
      ∀ vs, d.position = .animated vs → ∃ v, d'.position = .animated (vs ++ [v])) := by
  unfold readFrameBone at h
  rcases bind_eq_ok h with ⟨p1, h1, h⟩
  obtain ⟨d1, c1⟩ := p1
  simp only [] at h
  rcases bind_eq_ok h with ⟨p2, h2, h⟩
  obtain ⟨d2, c2⟩ := p2
  simp only [] at h
  rcases bind_eq_ok h with ⟨p3, h3, h⟩
  obtain ⟨d3, c3⟩ := p3
  simp only [] at h
  have s1 : d1.position = d.position ∧
      (u8HasFlag fl 0x80 = false → d1.rotation = d.rotation) ∧
      (u8HasFlag fl 0x80 = true →
        ∃ q, ∀ qs, d.rotation = .animated qs → d1.rotation = .animated (qs ++ [q])) := by
    by_cases h80 : u8HasFlag fl 0x80 = true
    · rw [if_pos h80] at h1
      rcases bind_eq_ok h1 with ⟨pb, htb, h1⟩
      obtain ⟨bs, cb⟩ := pb
      simp only [] at h1
      rcases bind_eq_ok h1 with ⟨dq, hpush, h1⟩
      cases h1
      rcases pushRotationFrame_ok hpush with ⟨⟨qs0, hq0, hq1⟩, hpos⟩
      refine ⟨hpos, ?_, ?_⟩
      · intro hf
        rw [h80] at hf
        cases hf
      · intro hf
        refine ⟨Quat.fromBytes48 bs, ?_⟩
        intro qs hqs
        rw [hqs] at hq0
        cases hq0
        exact hq1
    · rw [if_neg h80] at h1
      cases h1
      exact ⟨rfl, fun _ => rfl, fun hf => absurd hf h80⟩
  have s2 : d2.position = d1.position ∧
      (u8HasFlag fl 0x08 = false → d2.rotation = d1.rotation) ∧
      (u8HasFlag fl 0x08 = true →
        ∃ q, ∀ qs, d1.rotation = .animated qs → d2.rotation = .animated (qs ++ [q])) := by
    by_cases h08 : u8HasFlag fl 0x08 = true
    · rw [if_pos h08] at h2
      rcases bind_eq_ok h2 with ⟨pu, hpu, h2⟩
      obtain ⟨us, cu⟩ := pu
      simp only [] at h2
      rcases bind_eq_ok h2 with ⟨dq, hpush, h2⟩
      cases h2
      rcases pushRotationFrame_ok hpush with ⟨⟨qs0, hq0, hq1⟩, hpos⟩
      refine ⟨hpos, ?_, ?_⟩
      · intro hf
        rw [h08] at hf
        cases hf
      · intro hf
        refine ⟨Quat.fromU16s (us.getD 0 0) (us.getD 1 0) (us.getD 2 0), ?_⟩
        intro qs hqs
        rw [hqs] at hq0
        cases hq0
        exact hq1
    · rw [if_neg h08] at h2
      cases h2
      exact ⟨rfl, fun _ => rfl, fun hf => absurd hf h08⟩
  have s3 : d3.rotation = d2.rotation ∧
      (u8HasFlag fl 0x04 = false → d3.position = d2.position) ∧
      (u8HasFlag fl 0x04 = true →
        ∃ v, ∀ vs, d2.position = .animated vs → d3.position = .animated (vs ++ [v])) := by
    by_cases h04 : u8HasFlag fl 0x04 = true
    · rw [if_pos h04] at h3
      rcases bind_eq_ok h3 with ⟨pu, hpu, h3⟩
      obtain ⟨us, cu⟩ := pu
      simp only [] at h3
      rcases bind_eq_ok h3 with ⟨dv, hpush, h3⟩
      cases h3
      rcases pushPositionFrame_ok hpush with ⟨⟨vs0, hv0, hv1⟩, hrot⟩
      refine ⟨hrot, ?_, ?_⟩
      · intro hf
        rw [h04] at hf
        cases hf
      · intro hf
        refine ⟨Vec3.fromU16s (us.getD 0 0) (us.getD 1 0) (us.getD 2 0), ?_⟩
        intro vs hvs
        rw [hvs] at hv0
        cases hv0
        exact hv1
    · rw [if_neg h04] at h3
      cases h3
      exact ⟨rfl, fun _ => rfl, fun hf => absurd hf h04⟩
  have s4 : d'.rotation = d3.rotation ∧
      (u8HasFlag fl 0x10 = false → d'.position = d3.position) ∧
      (u8HasFlag fl 0x10 = true →
        ∃ v, ∀ vs, d3.position = .animated vs → d'.position = .animated (vs ++ [v])) := by
    by_cases h10 : u8HasFlag fl 0x10 = true
    · rw [if_pos h10] at h
      rcases bind_eq_ok h with ⟨pu, hpu, h⟩
      obtain ⟨qs, cu⟩ := pu
      simp only [] at h
      rcases bind_eq_ok h with ⟨dv, hpush, h⟩
      cases h
      rcases pushPositionFrame_ok hpush with ⟨⟨vs0, hv0, hv1⟩, hrot⟩
      refine ⟨hrot, ?_, ?_⟩
      · intro hf
        rw [h10] at hf
        cases hf
      · intro hf
        refine ⟨⟨qs.getD 0 0, qs.getD 1 0, qs.getD 2 0⟩, ?_⟩
        intro vs hvs
        rw [hvs] at hv0
        cases hv0
        exact hv1
    · rw [if_neg h10] at h
      cases h
      exact ⟨rfl, fun _ => rfl, fun hf => absurd hf h10⟩
  refine ⟨?_, ?_, ?_, ?_⟩
  · intro hf
    rcases Bool.or_eq_false_iff.mp hf with ⟨hf80, hf08⟩
    rw [s4.1, s3.1, s2.2.1 hf08, s1.2.1 hf80]
  · intro hf qs hqs
    rcases (by simpa using hf : u8HasFlag fl 0x80 = true ∨ u8HasFlag fl 0x08 = true)
      with h80 | h08
    · have hf08 : u8HasFlag fl 0x08 = false := by
        cases h08 : u8HasFlag fl 0x08
        · rfl
        · exact absurd ⟨h80, h08⟩ hcanR
      obtain ⟨q, hq⟩ := s1.2.2 h80
      exact ⟨q, by rw [s4.1, s3.1, s2.2.1 hf08, hq qs hqs]⟩
    · by_cases h80 : u8HasFlag fl 0x80 = true
      · exact absurd ⟨h80, h08⟩ hcanR
      · obtain ⟨q, hq⟩ := s2.2.2 h08
        refine ⟨q, ?_⟩
        rw [s4.1, s3.1, hq qs (by rw [s1.2.1 (by simpa using h80), hqs])]
  · intro hf
    rcases Bool.or_eq_false_iff.mp hf with ⟨hf04, hf10⟩
    rw [s4.2.1 hf10, s3.2.1 hf04, s2.1, s1.1]
  · intro hf vs hvs
    rcases (by simpa using hf : u8HasFlag fl 0x04 = true ∨ u8HasFlag fl 0x10 = true)
      with h04 | h10
    · have hf10 : u8HasFlag fl 0x10 = false := by
        cases h10 : u8HasFlag fl 0x10
        · rfl
        · exact absurd ⟨h04, h10⟩ hcanP
      obtain ⟨v, hv⟩ := s3.2.2 h04
      exact ⟨v, by rw [s4.2.1 hf10, hv vs (by rw [s2.1, s1.1, hvs])]⟩
    · by_cases h04 : u8HasFlag fl 0x04 = true
      · exact absurd ⟨h04, h10⟩ hcanP
      · obtain ⟨v, hv⟩ := s4.2.2 h10
        refine ⟨v, ?_⟩
        rw [hv vs (by rw [s3.2.1 (by simpa using h04), s2.1, s1.1, hvs])]

/-- Effect of one whole frame (the inner zip loop) on an `ok` run, bone by
bone. -/
theorem readFrameBonesLoop_ok {fs : List UInt8} {ds out : List BoneAnimationData}
    {c c' : Nat} {b : Bytes}
    (hcan : ∀ fl ∈ fs, ¬(u8HasFlag fl 0x80 = true ∧ u8HasFlag fl 0x08 = true) ∧
                       ¬(u8HasFlag fl 0x04 = true ∧ u8HasFlag fl 0x10 = true))
    (hlen : ds.length = fs.length)
    (h : readFrameBonesLoop fs ds c b = .ok (out, c')) :
    out.length = ds.length ∧
    ∀ i fl d, fs.get? i = some fl → ds.get? i = some d →
      ∃ d', out.get? i = some d' ∧
        ((u8HasFlag fl 0x80 || u8HasFlag fl 0x08) = false → d'.rotation = d.rotation) ∧
        ((u8HasFlag fl 0x80 || u8HasFlag fl 0x08) = true →
          ∀ qs, d.rotation = .animated qs → ∃ q, d'.rotation = .animated (qs ++ [q])) ∧
        ((u8HasFlag fl 0x04 || u8HasFlag fl 0x10) = false → d'.position = d.position) ∧
        ((u8HasFlag fl 0x04 || u8HasFlag fl 0x10) = true →
          ∀ vs, d.position = .animated vs → ∃ v, d'.position = .animated (vs ++ [v])) := by
  induction fs generalizing ds out c c' with
  | nil =>
    cases ds with
    | nil =>
      cases h
      exact ⟨rfl, fun i fl d hfl => by cases hfl⟩
    | cons d ds => cases hlen
  | cons fl fs ih =>
    cases ds with
    | nil => cases hlen
    | cons d ds =>
      unfold readFrameBonesLoop at h
      rcases bind_eq_ok h with ⟨p1, h1, h⟩
      obtain ⟨d1, c1⟩ := p1
      simp only [] at h
      rcases bind_eq_ok h with ⟨p2, h2, h⟩
      obtain ⟨ds1, c2⟩ := p2
      simp only [] at h
      cases h
      have hcans := hcan fl (List.mem_cons_self fl fs)
      obtain ⟨ihlen, ihget⟩ := ih (fun g hg => hcan g (List.mem_cons_of_mem fl hg))
        (by simpa using hlen) h2
      constructor
      · simp [ihlen]
      · intro i g dg hfl hdg
        cases i with
        | zero =>
          cases hfl
          cases hdg
          exact ⟨d1, rfl, readFrameBone_ok hcans.1 hcans.2 h1⟩
        | succ i =>
          simp only [List.get?_cons_succ] at hfl hdg ⊢
          exact ihget i g dg hfl hdg

/-- Effect of `n` frames of the outer loop on an `ok` run: each flagged
field of each bone gains exactly `n` frames. -/
theorem readFramesLoop_ok {n : Nat} {fs : List UInt8} {ds out : List BoneAnimationData}
    {c c' : Nat} {b : Bytes}
    (hcan : ∀ fl ∈ fs, ¬(u8HasFlag fl 0x80 = true ∧ u8HasFlag fl 0x08 = true) ∧
                       ¬(u8HasFlag fl 0x04 = true ∧ u8HasFlag fl 0x10 = true))
    (hlen : ds.length = fs.length)
    (h : readFramesLoop n fs ds c b = .ok (out, c')) :
    out.length = ds.length ∧
    ∀ i fl d, fs.get? i = some fl → ds.get? i = some d →
      ∃ d', out.get? i = some d' ∧
        ((u8HasFlag fl 0x80 || u8HasFlag fl 0x08) = false → d'.rotation = d.rotation) ∧
        ((u8HasFlag fl 0x80 || u8HasFlag fl 0x08) = true →
          ∀ qs, d.rotation = .animated qs →
            ∃ qs', d'.rotation = .animated qs' ∧ qs'.length = qs.length + n) ∧
        ((u8HasFlag fl 0x04 || u8HasFlag fl 0x10) = false → d'.position = d.position) ∧
        ((u8HasFlag fl 0x04 || u8HasFlag fl 0x10) = true →
          ∀ vs, d.position = .animated vs →
            ∃ vs', d'.position = .animated vs' ∧ vs'.length = vs.length + n) := by
  induction n generalizing ds c with
  | zero =>
    cases h
    refine ⟨rfl, ?_⟩
    intro i fl d hfl hd
    refine ⟨d, hd, fun _ => rfl, ?_, fun _ => rfl, ?_⟩
    · intro _ qs hqs
      exact ⟨qs, hqs, rfl⟩
    · intro _ vs hvs
      exact ⟨vs, hvs, rfl⟩
  | succ n ih =>
    unfold readFramesLoop at h
    rcases bind_eq_ok h with ⟨p1, h1, h⟩
    obtain ⟨ds1, c1⟩ := p1
    simp only [] at h
    obtain ⟨flen, fget⟩ := readFrameBonesLoop_ok hcan hlen h1
    obtain ⟨ihlen, ihget⟩ := ih (flen.trans hlen) h
    refine ⟨ihlen.trans flen, ?_⟩
    intro i fl d hfl hd
    obtain ⟨d1, hd1, f0, f1, f2, f3⟩ := fget i fl d hfl hd
    obtain ⟨d', hd', g0, g1, g2, g3⟩ := ihget i fl d1 hfl hd1
    refine ⟨d', hd', ?_, ?_, ?_, ?_⟩
    · intro hf
      rw [g0 hf, f0 hf]
    · intro hf qs hqs
      obtain ⟨q, hq⟩ := f1 hf qs hqs
      obtain ⟨qs', hqs', hqlen⟩ := g1 hf (qs ++ [q]) hq
      refine ⟨qs', hqs', ?_⟩
      rw [hqlen]
      simp only [List.length_append, List.length_cons, List.length_nil]
      omega
    · intro hf
      rw [g2 hf, f2 hf]
    · intro hf vs hvs
      obtain ⟨v, hv⟩ := f3 hf vs hvs
      obtain ⟨vs', hvs', hvlen⟩ := g3 hf (vs ++ [v]) hv
      refine ⟨vs', hvs', ?_⟩
      rw [hvlen]
      simp only [List.length_append, List.length_cons, List.length_nil]
      omega

/-- The initialisation loop: with matching lengths, the output has the same
length, flagged fields are reset to empty `animated` curves, and unflagged
fields are untouched. -/
theorem initAnimatedFields_get? (fs : List UInt8) (ds : List BoneAnimationData)
    (hlen : ds.length = fs.length) :
    (initAnimatedFields fs ds).length = ds.length ∧
    ∀ i fl d, fs.get? i = some fl → ds.get? i = some d →
      ∃ d2, (initAnimatedFields fs ds).get? i = some d2 ∧
        d2.rotation = (if (u8HasFlag fl 0x80 || u8HasFlag fl 0x08) = true
          then .animated [] else d.rotation) ∧
        d2.position = (if (u8HasFlag fl 0x04 || u8HasFlag fl 0x10) = true
          then .animated [] else d.position) := by
  induction fs generalizing ds with
  | nil =>
    cases ds with
    | nil => exact ⟨rfl, fun i fl d hfl => by cases hfl⟩
    | cons d ds => cases hlen
  | cons fl fs ih =>
    cases ds with
    | nil => cases hlen
    | cons d ds =>
      obtain ⟨ihlen, ihget⟩ := ih ds (by simpa using hlen)
      constructor
      · simp only [initAnimatedFields, List.length_cons, ihlen]
      · intro i g dg hfl hdg
        cases i with
        | zero =>
          cases hfl
          cases hdg
          refine ⟨_, rfl, ?_, ?_⟩
          · by_cases hp : (u8HasFlag fl 0x04 || u8HasFlag fl 0x10) = true <;>
              by_cases hr : (u8HasFlag fl 0x80 || u8HasFlag fl 0x08) = true <;>
              simp [hp, hr]
          · by_cases hp : (u8HasFlag fl 0x04 || u8HasFlag fl 0x10) = true <;>
              by_cases hr : (u8HasFlag fl 0x80 || u8HasFlag fl 0x08) = true <;>
              simp [hp, hr]
        | succ i =>
          simp only [initAnimatedFields, List.get?_cons_succ] at hfl hdg ⊢
          exact ihget i g dg hfl hdg

/-- Claim C7: in the per-frame bitflag decoder, every bone whose flag byte
requests per-frame rotation (`ANIM_ROT2` or `ANIMROT`) or per-frame
position (`ANIMPOS` or `FULLANIMPOS`) data ends up with an `animated` curve
of exactly `frame_count + 1` samples when the section is not the final one
and exactly `frame_count` samples when it is. -/
theorem claimC7 (f : FrameAnimationRefM) (flags : List UInt8)
    (data out : List BoneAnimationData)
    (hoff : ¬(f.frameAnimation.frameOffset = 0))
    (hlen : data.length = flags.length)
    (hcan : ∀ fl ∈ flags, ¬(u8HasFlag fl 0x80 = true ∧ u8HasFlag fl 0x08 = true) ∧
                          ¬(u8HasFlag fl 0x04 = true ∧ u8HasFlag fl 0x10 = true))
    (hok : readBoneFrames f flags data = .ok out) :
    out.length = data.length ∧
    ∀ i fl d, flags.get? i = some fl → out.get? i = some d →
      ((u8HasFlag fl 0x80 || u8HasFlag fl 0x08) = true →
        ∃ qs, d.rotation = .animated qs ∧
          qs.length = if f.lastSection then f.frameCount else f.frameCount + 1) ∧
      ((u8HasFlag fl 0x04 || u8HasFlag fl 0x10) = true →
        ∃ vs, d.position = .animated vs ∧
          vs.length = if f.lastSection then f.frameCount else f.frameCount + 1) := by
  unfold readBoneFrames at hok
  rw [if_neg hoff] at hok
  simp only [] at hok
  cases hsl : sliceFrom f.bytes ((f.offset : Int) + f.frameAnimation.frameOffset) with
  | none => rw [hsl] at hok; cases hok
  | some tail =>
    rw [hsl] at hok
    simp only [] at hok
    rcases bind_eq_ok hok with ⟨p, hloop, hok⟩
    obtain ⟨ds, cend⟩ := p
    simp only [] at hok
    cases hok
    obtain ⟨initlen, initget⟩ := initAnimatedFields_get? flags data hlen
    obtain ⟨looplen, loopget⟩ := readFramesLoop_ok hcan (initlen.trans hlen) hloop
    refine ⟨looplen.trans initlen, ?_⟩
    intro i fl d hfl hd
    have hi : i < data.length := by
      rw [hlen]
      by_contra hge
      rw [List.get?_eq_none.mpr (by omega)] at hfl
      cases hfl
    obtain ⟨d0, hd0⟩ : ∃ d0, data.get? i = some d0 := ⟨data.get ⟨i, hi⟩, List.get?_eq_get hi⟩
    obtain ⟨d2, hd2, hrot2, hpos2⟩ := initget i fl d0 hfl hd0
    obtain ⟨d', hd', g0, g1, g2, g3⟩ := loopget i fl d2 hfl hd2
    have hdd : some d' = some d := hd'.symm.trans hd
    cases hdd
    constructor
    · intro hf
      have hrot2a : d2.rotation = .animated [] := by rw [hrot2, if_pos hf]
      obtain ⟨qs', hqs', hql⟩ := g1 hf [] hrot2a
      exact ⟨qs', hqs', by simpa using hql⟩
    · intro hf
      have hpos2a : d2.position = .animated [] := by rw [hpos2, if_pos hf]
      obtain ⟨vs', hvs', hvl⟩ := g3 hf [] hpos2a
      exact ⟨vs', hvs', by simpa using hvl⟩

/-- Witness for `claimC7` at `c7f`: one bone with only `ANIMPOS` set, two
frames, final section, so the decoded position curve has exactly two
samples and the rotation field is untouched. -/
theorem claimC7_witness :
    ([({ rotation := .noData, position := .animated [⟨0, 0, 0⟩, ⟨0, 0, 0⟩] } :
        BoneAnimationData)]).length = ([({} : BoneAnimationData)]).length ∧
    ∀ i fl d, ([(0x04 : UInt8)]).get? i = some fl →
      ([({ rotation := .noData, position := .animated [⟨0, 0, 0⟩, ⟨0, 0, 0⟩] } :
          BoneAnimationData)]).get? i = some d →
      ((u8HasFlag fl 0x80 || u8HasFlag fl 0x08) = true →
        ∃ qs, d.rotation = .animated qs ∧
          qs.length = if c7f.lastSection then c7f.frameCount else c7f.frameCount + 1) ∧
      ((u8HasFlag fl 0x04 || u8HasFlag fl 0x10) = true →
        ∃ vs, d.position = .animated vs ∧
          vs.length = if c7f.lastSection then c7f.frameCount else c7f.frameCount + 1) :=
  claimC7 c7f [0x04] [{}]
    [{ rotation := .noData, position := .animated [⟨0, 0, 0⟩, ⟨0, 0, 0⟩] }]
    (by decide) rfl (by decide) rfl

end MdlModel
